import Mathlib

/-!
# Verification of the kvaser-lang back-end code generator

A shallow embedding of `src/lib/back/codegen.rs` (the LLVM code generator of
the kvaser language compiler), together with theorems settling the claims of
the specification.

Conventions:
* the stateful LLVM `Builder` is embedded as explicit lists of emitted
  instructions (`Instr`) over symbolic SSA values (`Val`);
* machine-level layout (`size_of`, field offsets) follows the x86-64 data
  layout with 8-byte pointers;
* Rust `panic!` (internal compiler errors) is embedded as `Option.none` /
  a dedicated error constructor, `SrcPos::error_exit` (user errors) as a
  distinguished error value;
* pieces of the front-end `ast` module that are not part of the sources are
  modelled from the spec and are marked `Modelled from the spec:` in their
  doc comments.
-/

namespace Kvaser

/-- Source positions.  The code generator treats `SrcPos` opaquely (it only
clones it and hands it to diagnostics), so we model it as an abstract token
rendered by its own text. -/
abbrev SrcPos := String

/-- Source-language types (`ast::Type`) as consumed by the code generator
after type checking and monomorphization.  `const` optionally carries ADT
instantiation arguments, `app` is a type-constructor application with a
concrete head (`->`, `Cons`, `Ptr`, or a user ADT name), `var` is a type
variable (rejected by the code generator). -/
inductive Ty where
  | const (name : String) (inst : Option (List Ty))
  | app (ctor : String) (args : List Ty)
  | var (name : String)

mutual

def Ty.decEq : (a b : Ty) → Decidable (a = b)
  | .const n i, .const n2 i2 =>
    match String.decEq n n2 with
    | isTrue hn =>
      match Ty.decEqOptList i i2 with
      | isTrue hi => isTrue (by rw [hn, hi])
      | isFalse hi => isFalse (fun h => by cases h; exact hi rfl)
    | isFalse hn => isFalse (fun h => by cases h; exact hn rfl)
  | .app c a, .app c2 a2 =>
    match String.decEq c c2 with
    | isTrue hc =>
      match Ty.decEqList a a2 with
      | isTrue ha => isTrue (by rw [hc, ha])
      | isFalse ha => isFalse (fun h => by cases h; exact ha rfl)
    | isFalse hc => isFalse (fun h => by cases h; exact hc rfl)
  | .var n, .var n2 =>
    match String.decEq n n2 with
    | isTrue hn => isTrue (by rw [hn])
    | isFalse hn => isFalse (fun h => by cases h; exact hn rfl)
  | .const _ _, .app _ _ => isFalse (fun h => Ty.noConfusion h)
  | .const _ _, .var _ => isFalse (fun h => Ty.noConfusion h)
  | .app _ _, .const _ _ => isFalse (fun h => Ty.noConfusion h)
  | .app _ _, .var _ => isFalse (fun h => Ty.noConfusion h)
  | .var _, .const _ _ => isFalse (fun h => Ty.noConfusion h)
  | .var _, .app _ _ => isFalse (fun h => Ty.noConfusion h)

def Ty.decEqList : (a b : List Ty) → Decidable (a = b)
  | [], [] => isTrue rfl
  | [], _ :: _ => isFalse (fun h => List.noConfusion h)
  | _ :: _, [] => isFalse (fun h => List.noConfusion h)
  | t :: ts, u :: us =>
    match Ty.decEq t u with
    | isTrue ht =>
      match Ty.decEqList ts us with
      | isTrue hts => isTrue (by rw [ht, hts])
      | isFalse hts => isFalse (fun h => by cases h; exact hts rfl)
    | isFalse ht => isFalse (fun h => by cases h; exact ht rfl)

def Ty.decEqOptList : (a b : Option (List Ty)) → Decidable (a = b)
  | none, none => isTrue rfl
  | none, some _ => isFalse (fun h => Option.noConfusion h)
  | some _, none => isFalse (fun h => Option.noConfusion h)
  | some a, some b =>
    match Ty.decEqList a b with
    | isTrue h => isTrue (by rw [h])
    | isFalse h => isFalse (fun he => by cases he; exact h rfl)

end

instance : DecidableEq Ty := Ty.decEq

/-- Modelled from the spec: `Type::get_inst_args` of the front-end `ast`
module returns the instantiation arguments optionally carried by a type. -/
def Ty.get_inst_args : Ty → Option (List Ty)
  | .const _ inst => inst
  | _ => none

/-- Modelled from the spec: `canonicalize` collapses `App` wrappers when the
type is monomorphic.  Our `Ty` only contains concrete-headed constructors
(there is no polymorphic type-function head to collapse), so on this model
canonicalization is the identity. -/
def Ty.canonicalize (t : Ty) : Ty := t

/-- Modelled from the spec: `int_size` gives the bit width of a signed
integer type (`IntPtr` is pointer-sized), `none` otherwise. -/
def Ty.int_size (ptrSize : Nat) : Ty → Option Nat
  | .const "Int8" _ => some 8
  | .const "Int16" _ => some 16
  | .const "Int32" _ => some 32
  | .const "Int64" _ => some 64
  | .const "IntPtr" _ => some ptrSize
  | _ => none

/-- Modelled from the spec: `uint_size` gives the bit width of an unsigned
integer type (`UIntPtr` is pointer-sized), `none` otherwise. -/
def Ty.uint_size (ptrSize : Nat) : Ty → Option Nat
  | .const "UInt8" _ => some 8
  | .const "UInt16" _ => some 16
  | .const "UInt32" _ => some 32
  | .const "UInt64" _ => some 64
  | .const "UIntPtr" _ => some ptrSize
  | _ => none

/-- Modelled from the spec: `is_int` holds of the signed integer types. -/
def Ty.is_int : Ty → Bool
  | .const n _ =>
    n == "Int8" || n == "Int16" || n == "Int32" || n == "Int64" || n == "IntPtr"
  | _ => false

/-- Modelled from the spec: `is_uint` holds of the unsigned integer types. -/
def Ty.is_uint : Ty → Bool
  | .const n _ =>
    n == "UInt8" || n == "UInt16" || n == "UInt32" || n == "UInt64" || n == "UIntPtr"
  | _ => false

/-- Modelled from the spec: `is_float` holds of the floating point types. -/
def Ty.is_float : Ty → Bool
  | .const n _ => n == "Float32" || n == "Float64"
  | _ => false

/-- An instantiation: the ordered list of concrete types substituted for a
binding's type parameters. -/
abbrev Inst := List Ty

/-- Association-list lookup (the embedding of `BTreeMap` lookups; keys are
unique in all maps we build, so ordering is irrelevant to lookups). -/
def alookup {κ α : Type} [DecidableEq κ] : List (κ × α) → κ → Option α
  | [], _ => none
  | (k2, v) :: rest, k => if k2 = k then some v else alookup rest k

/-- Association-list key removal (`BTreeMap::remove`). -/
def aremove {κ α : Type} [DecidableEq κ] : List (κ × α) → κ → List (κ × α)
  | [], _ => []
  | (k2, v) :: rest, k =>
    if k2 = k then aremove rest k else (k2, v) :: aremove rest k

/-! ## LLVM IR types and the target data layout -/

/-- Embedded LLVM IR types.  Named struct types are referenced by name; their
bodies live in a `StructDefs` table (`none` marks a struct that has been
declared but whose elements have not been set yet, i.e. `new_opaque`). -/
inductive LLType where
  | int (bits : Nat)
  | float32
  | float64
  | ptr (t : LLType)
  | struct_ (fields : List LLType)
  | namedStruct (name : String)
  | funcT (ret : LLType) (args : List LLType)
  | array (n : Nat) (t : LLType)

mutual

def LLType.decEq : (a b : LLType) → Decidable (a = b)
  | .int n, .int m =>
    match Nat.decEq n m with
    | isTrue h => isTrue (by rw [h])
    | isFalse h => isFalse (fun he => by cases he; exact h rfl)
  | .float32, .float32 => isTrue rfl
  | .float64, .float64 => isTrue rfl
  | .ptr t, .ptr u =>
    match LLType.decEq t u with
    | isTrue h => isTrue (by rw [h])
    | isFalse h => isFalse (fun he => by cases he; exact h rfl)
  | .struct_ fs, .struct_ gs =>
    match LLType.decEqList fs gs with
    | isTrue h => isTrue (by rw [h])
    | isFalse h => isFalse (fun he => by cases he; exact h rfl)
  | .namedStruct n, .namedStruct m =>
    match String.decEq n m with
    | isTrue h => isTrue (by rw [h])
    | isFalse h => isFalse (fun he => by cases he; exact h rfl)
  | .funcT r as_, .funcT r2 as2 =>
    match LLType.decEq r r2 with
    | isTrue h =>
      match LLType.decEqList as_ as2 with
      | isTrue h2 => isTrue (by rw [h, h2])
      | isFalse h2 => isFalse (fun he => by cases he; exact h2 rfl)
    | isFalse h => isFalse (fun he => by cases he; exact h rfl)
  | .array n t, .array m u =>
    match Nat.decEq n m with
    | isTrue h =>
      match LLType.decEq t u with
      | isTrue h2 => isTrue (by rw [h, h2])
      | isFalse h2 => isFalse (fun he => by cases he; exact h2 rfl)
    | isFalse h => isFalse (fun he => by cases he; exact h rfl)
  | .int _, .float32 | .int _, .float64 | .int _, .ptr _ | .int _, .struct_ _
  | .int _, .namedStruct _ | .int _, .funcT _ _ | .int _, .array _ _
  | .float32, .int _ | .float32, .float64 | .float32, .ptr _ | .float32, .struct_ _
  | .float32, .namedStruct _ | .float32, .funcT _ _ | .float32, .array _ _
  | .float64, .int _ | .float64, .float32 | .float64, .ptr _ | .float64, .struct_ _
  | .float64, .namedStruct _ | .float64, .funcT _ _ | .float64, .array _ _
  | .ptr _, .int _ | .ptr _, .float32 | .ptr _, .float64 | .ptr _, .struct_ _
  | .ptr _, .namedStruct _ | .ptr _, .funcT _ _ | .ptr _, .array _ _
  | .struct_ _, .int _ | .struct_ _, .float32 | .struct_ _, .float64 | .struct_ _, .ptr _
  | .struct_ _, .namedStruct _ | .struct_ _, .funcT _ _ | .struct_ _, .array _ _
  | .namedStruct _, .int _ | .namedStruct _, .float32 | .namedStruct _, .float64
  | .namedStruct _, .ptr _ | .namedStruct _, .struct_ _ | .namedStruct _, .funcT _ _
  | .namedStruct _, .array _ _
  | .funcT _ _, .int _ | .funcT _ _, .float32 | .funcT _ _, .float64 | .funcT _ _, .ptr _
  | .funcT _ _, .struct_ _ | .funcT _ _, .namedStruct _ | .funcT _ _, .array _ _
  | .array _ _, .int _ | .array _ _, .float32 | .array _ _, .float64 | .array _ _, .ptr _
  | .array _ _, .struct_ _ | .array _ _, .namedStruct _ | .array _ _, .funcT _ _ =>
    isFalse (fun h => LLType.noConfusion h)

def LLType.decEqList : (a b : List LLType) → Decidable (a = b)
  | [], [] => isTrue rfl
  | [], _ :: _ => isFalse (fun h => List.noConfusion h)
  | _ :: _, [] => isFalse (fun h => List.noConfusion h)
  | t :: ts, u :: us =>
    match LLType.decEq t u with
    | isTrue ht =>
      match LLType.decEqList ts us with
      | isTrue hts => isTrue (by rw [ht, hts])
      | isFalse hts => isFalse (fun h => by cases h; exact hts rfl)
    | isFalse ht => isFalse (fun h => by cases h; exact ht rfl)

end

instance : DecidableEq LLType := LLType.decEq

/-- Bodies of the named struct types of a module: `none` is a still-opaque
struct (declared via `new_opaque`, elements not yet set). -/
abbrev StructDefs := List (String × Option (List LLType))

/-- Round `n` up to a multiple of the alignment `a`. -/
def alignTo (n a : Nat) : Nat := if a = 0 then n else ((n + a - 1) / a) * a

/-- ABI alignment of an LLVM type under the x86-64 data layout (pointer size
8 bytes).  The `fuel` bounds unfolding of named struct references; recursive
named structs only refer to themselves behind pointers, which do not recurse,
so any fuel beyond the nesting depth of the type is enough. -/
def LLType.alignOf (defs : StructDefs) : Nat → LLType → Nat
  | 0, _ => 1
  | _ + 1, .int bits =>
    if bits ≤ 8 then 1 else if bits ≤ 16 then 2 else if bits ≤ 32 then 4 else 8
  | _ + 1, .float32 => 4
  | _ + 1, .float64 => 8
  | _ + 1, .ptr _ => 8
  | fuel + 1, .struct_ fields =>
    fields.foldl (fun a t => max a (LLType.alignOf defs fuel t)) 1
  | fuel + 1, .namedStruct n =>
    match alookup defs n with
    | some (some fields) => LLType.alignOf defs fuel (.struct_ fields)
    | _ => 1
  | _ + 1, .funcT _ _ => 1
  | fuel + 1, .array _ t => LLType.alignOf defs fuel t

/-- Allocation size in bytes of an LLVM type under the x86-64 data layout
(`LLVMABISizeOfType`, which is what `TargetData::size_of` calls).  Struct
fields are laid out in order, each aligned to its ABI alignment, and the
total is rounded up to the struct's alignment. -/
def LLType.sizeOf (defs : StructDefs) : Nat → LLType → Nat
  | 0, _ => 0
  | _ + 1, .int bits => (bits + 7) / 8
  | _ + 1, .float32 => 4
  | _ + 1, .float64 => 8
  | _ + 1, .ptr _ => 8
  | fuel + 1, .struct_ fields =>
    let unpadded :=
      fields.foldl
        (fun off t =>
          alignTo off (LLType.alignOf defs fuel t) + LLType.sizeOf defs fuel t)
        0
    alignTo unpadded (LLType.alignOf defs (fuel + 1) (.struct_ fields))
  | fuel + 1, .namedStruct n =>
    match alookup defs n with
    | some (some fields) => LLType.sizeOf defs fuel (.struct_ fields)
    | _ => 0
  | _ + 1, .funcT _ _ => 0
  | fuel + 1, .array n t => n * LLType.sizeOf defs fuel t

/-- Helper for `structFieldOffset`: offset of field `i` of `fields` when the
fields laid out so far end at byte `off`. -/
def structFieldOffsetFrom (defs : StructDefs) (fuel : Nat) (off : Nat) :
    List LLType → Nat → Nat
  | [], _ => off
  | t :: _, 0 => alignTo off (LLType.alignOf defs fuel t)
  | t :: rest, i + 1 =>
    structFieldOffsetFrom defs fuel
      (alignTo off (LLType.alignOf defs fuel t) + LLType.sizeOf defs fuel t) rest i

/-- Byte offset of field `i` within a struct whose field list is `fields`
(the offset a `getelementptr [0, i]` addresses). -/
def structFieldOffset (defs : StructDefs) (fuel : Nat) (fields : List LLType) (i : Nat) : Nat :=
  structFieldOffsetFrom defs fuel 0 fields i

/-! ## Symbolic SSA values and emitted instructions

The stateful LLVM `Builder` is embedded by letting every emission helper
return the list of side-effecting instructions it appends to the current
block (`Instr`) next to the pure SSA value it produces (`Val`). -/

/-- Symbolic LLVM SSA values. -/
inductive Val where
  | undef (t : LLType)
  | constInt (bits : Nat) (n : Int)
  | insertValue (agg : Val) (v : Val) (i : Nat)
  | extractValue (agg : Val) (i : Nat)
  | bitcast (v : Val) (t : LLType)
  | gep (p : Val) (idxs : List Nat)
  | globalRef (name : String) (t : LLType)
  | strGlobal (s : String)
  | load (p : Val)
  | call (callee : Val) (args : List Val)
  | param (f : String) (i : Nat) (t : LLType)
  | phi (t : LLType) (nodes : List (Val × String))

/-- Side-effecting instructions appended to the current basic block. -/
inductive Instr where
  | store (v : Val) (p : Val)
  | callI (callee : Val) (args : List Val)
  | br (target : String)
  | condBr (c : Val) (ifTrue ifFalse : String)
  | ret (v : Val)
  | alloca (t : LLType)

/-- The field list of a struct type (resolving named structs through the
module's `StructDefs`). -/
def structFields (defs : StructDefs) : LLType → Option (List LLType)
  | .struct_ fs => some fs
  | .namedStruct n =>
    match alookup defs n with
    | some (some fs) => some fs
    | _ => none
  | _ => none

/-- Step through the aggregate indices of a `getelementptr` after its first
(array) index. -/
def Val.gepStep (defs : StructDefs) : LLType → List Nat → Option LLType
  | t, [] => some t
  | t, i :: rest => do
    match t with
    | .array _ elem => Val.gepStep defs elem rest
    | other => do
      let fs ← structFields defs other
      let f ← fs.get? i
      Val.gepStep defs f rest

/-- The LLVM type of a symbolic value (`Value::get_type`).  `none` for the
handles whose type our embedding does not track. -/
def Val.typeOf (defs : StructDefs) : Val → Option LLType
  | .undef t => some t
  | .constInt bits _ => some (.int bits)
  | .insertValue agg _ _ => agg.typeOf defs
  | .extractValue agg i => do
    let t ← agg.typeOf defs
    let fs ← structFields defs t
    fs.get? i
  | .bitcast _ t => some t
  | .gep p idxs => do
    let t ← p.typeOf defs
    match t, idxs with
    | .ptr base, _ :: rest => (Val.gepStep defs base rest).map .ptr
    | _, _ => none
  | .globalRef _ t => some t
  | .strGlobal s => some (.ptr (.array (s.length + 1) (.int 8)))
  | .load p => do
    match ← p.typeOf defs with
    | .ptr t => some t
    | _ => none
  | .call _ _ => none
  | .param _ _ t => some t
  | .phi t _ => some t

/-! ## The named types of the code generator (`NamedTypes` fields
`nil`, `real_world`, `rc_generic`) and the reference-counting helpers -/

/-- `type_generic_ptr`: a generic `i8*` pointer. -/
def type_generic_ptr : LLType := .ptr (.int 8)

/-- `type_rc`: the type of a reference counted pointer to `contents`,
`{i64, contents}*`. -/
def type_rc (contents : LLType) : LLType := .ptr (.struct_ [.int 64, contents])

/-- The named empty struct representing `Nil`. -/
def tyNil : LLType := .namedStruct "Nil"

/-- The named empty struct representing the `RealWorld` I/O token. -/
def tyRealWorld : LLType := .namedStruct "RealWorld"

/-- `named_types.rc_generic`: pointer to the named struct `rc_gen_in`
(`{u64, u8}`), the uniform type of capture records inside closures. -/
def rc_generic : LLType := .ptr (.namedStruct "rc_gen_in")

/-- The named structs created by `CodeGenerator::new` before any user type is
lowered. -/
def baseStructDefs : StructDefs :=
  [("rc_gen_in", some [.int 64, .int 8]),
   ("RealWorld", some []),
   ("Nil", some [])]

/-! ## The environment (`Env`) -/

/-- A global function: the naked `Function` used for direct calls, plus the
global constant wrapping closure used when the function is taken as a
value. -/
structure GlobFunc where
  func : Val
  closure : Val

/-- A global variable or function (`Global`). -/
inductive Global where
  | func (g : GlobFunc)
  | var (v : Val)

/-- An environment lookup result (`Var`). -/
inductive EnvVar where
  | global (g : Global)
  | local_ (v : Val)

/-- The code generator environment: globals are instantiation-indexed, locals
are a per-name stack (most recently pushed scope at the end of the list) of
instantiation-indexed maps. -/
structure Env where
  globs : List (String × List (Inst × Global))
  locals : List (String × List (List (Inst × Val)))

/-- `Env::new`. -/
def Env.new : Env := ⟨[], []⟩

/-- `Env::get_local`: consult only the innermost (most recently pushed) scope
of the name. -/
def Env.get_local (env : Env) (s : String) (ts : Inst) : Option Val := do
  let scopes ← alookup env.locals s
  let insts ← scopes.getLast?
  alookup insts ts

/-- `Env::get_global`. -/
def Env.get_global (env : Env) (s : String) (ts : Inst) : Option Global := do
  let insts ← alookup env.globs s
  alookup insts ts

/-- `Env::get_global_mono`. -/
def Env.get_global_mono (env : Env) (s : String) : Option Global :=
  env.get_global s []

/-- `Env::get`: locals take precedence over globals. -/
def Env.get (env : Env) (s : String) (ts : Inst) : Option EnvVar :=
  match env.get_local s ts with
  | some l => some (.local_ l)
  | none => (env.get_global s ts).map .global

/-- Update (or create) the entry of key `k` in an association list with `f`
applied to its previous value. -/
def aupdate {κ α : Type} [DecidableEq κ] (l : List (κ × α)) (k : κ) (dflt : α)
    (f : α → α) : List (κ × α) :=
  match l with
  | [] => [(k, f dflt)]
  | (k2, v) :: rest =>
    if k2 = k then (k2, f v) :: rest else (k2, v) :: aupdate rest k dflt f

/-- `Env::add_global`. -/
def Env.add_global (env : Env) (id : String) (var : List (Inst × Global)) : Env :=
  { env with globs := aupdate env.globs id [] (fun _ => var) }

/-- `Env::add_global_mono`. -/
def Env.add_global_mono (env : Env) (id : String) (var : Global) : Env :=
  env.add_global id [([], var)]

/-- `Env::push_local`: push a fresh scope for `id`. -/
def Env.push_local (env : Env) (id : String) (var : List (Inst × Val)) : Env :=
  { env with locals := aupdate env.locals id [] (fun scopes => scopes ++ [var]) }

/-- `Env::push_local_mono`. -/
def Env.push_local_mono (env : Env) (id : String) (var : Val) : Env :=
  env.push_local id [([], var)]

/-- `Env::add_global_inst`: `none` embeds the `ICE: val already exists for
inst` panic. -/
def Env.add_global_inst (env : Env) (id : String) (inst : Inst) (val : Global) :
    Option Env :=
  let insts := (alookup env.globs id).getD []
  if (alookup insts inst).isSome then none
  else some { env with globs := aupdate env.globs id [] (fun l => l ++ [(inst, val)]) }

/-- `Env::add_local_inst`: insert into the innermost scope of `id` (pushing
an initial scope when the stack is empty); `none` embeds the duplicate-inst
panic. -/
def Env.add_local_inst (env : Env) (id : String) (inst : Inst) (val : Val) :
    Option Env :=
  let scopes := (alookup env.locals id).getD []
  let scopes := if scopes.isEmpty then [[]] else scopes
  match scopes.getLast? with
  | none => none
  | some top =>
    if (alookup top inst).isSome then none
    else
      some { env with
             locals :=
               aupdate env.locals id []
                 (fun _ => scopes.dropLast ++ [top ++ [(inst, val)]]) }

/-- `Env::pop_local`: pop the innermost scope of `id`; `none` embeds the
`ICE` panics for a missing or empty stack. -/
def Env.pop_local (env : Env) (id : String) : Option (Env × List (Inst × Val)) := do
  let scopes ← alookup env.locals id
  let top ← scopes.getLast?
  some ({ env with locals := aupdate env.locals id [] (fun _ => scopes.dropLast) }, top)

/-! ## Builder emission helpers

Each helper returns the instructions it appends to the current block and the
value it produces.  `Option.none` embeds the `panic!` / `expect` paths
(internal compiler errors). -/

/-- Default unfolding depth for layout computations; any value at least the
nesting depth of the types involved gives the exact LLVM data-layout
answer. -/
def layoutFuel : Nat := 64

/-- `CodeGenerator::size_of` (`TargetData::size_of`). -/
def size_of (defs : StructDefs) (t : LLType) : Nat :=
  LLType.sizeOf defs layoutFuel t

/-- `build_struct_of_type`: create a struct of type `typ` in register by a
chain of `insertvalue`s starting from `undef`. -/
def build_struct_of_type (vals : List Val) (typ : LLType) : Val :=
  (vals.enum).foldl (fun acc p => .insertValue acc p.2 p.1) (.undef typ)

/-- `build_struct`: like `build_struct_of_type` with the struct type computed
from the values' types (`none` when the embedding does not know a type). -/
def build_struct (defs : StructDefs) (vals : List Val) : Option Val := do
  let ts ← vals.mapM (Val.typeOf defs)
  some (build_struct_of_type vals (.struct_ ts))

/-- `build_gep_rc_contents`: index field 1 of the RC struct, yielding a
pointer to the payload. -/
def build_gep_rc_contents (rc : Val) : Val := .gep rc [0, 1]

/-- `build_gep_rc_contents_generic`: bitcast to `{i64, i8}*` first, then GEP
the contents. -/
def build_gep_rc_contents_generic (rc : Val) : Val :=
  build_gep_rc_contents (.bitcast rc (.ptr (.struct_ [.int 64, .int 8])))

/-- `build_as_generic_rc`: bitcast a pointer to the generic reference counted
pointer type `{i64, i8}*` (the named `rc_generic`). -/
def build_as_generic_rc (val : Val) : Val := .bitcast val rc_generic

/-- `build_app`: apply a closure value to an argument — extract `fp`, extract
the captures RC, GEP the generic contents pointer, and call
`fp(captures_ptr, arg)`. -/
def build_app (closure arg : Val) : List Instr × Val :=
  let func_val := Val.extractValue closure 0
  let captures_rc := Val.extractValue closure 1
  let captures_ptr := build_gep_rc_contents_generic captures_rc
  ([.callI func_val [captures_ptr, arg]], .call func_val [captures_ptr, arg])

/-- `build_call_named`: call the function/closure named `name` — a direct
naked call for a global function, a closure application after a load for a
global variable, a closure application for a local.  `none` embeds the
`ICE: No function defined or declared` panic. -/
def build_call_named (env : Env) (name : String) (inst : Inst) (arg : Val) :
    Option (List Instr × Val) :=
  match env.get name inst with
  | some (.global (.func g)) => some ([.callI g.func [arg]], .call g.func [arg])
  | some (.global (.var g)) => some (build_app (.load g) arg)
  | some (.local_ v) => some (build_app v arg)
  | none => none

/-- `build_call_named_mono`. -/
def build_call_named_mono (env : Env) (name : String) (arg : Val) :
    Option (List Instr × Val) :=
  build_call_named env name [] arg

/-- `build_malloc`: call whatever is bound to `malloc` with `n` (a `usize`,
64-bit here) to allocate `n` bytes; returns the generic `i8*` heap pointer. -/
def build_malloc (env : Env) (n : Nat) : Option (List Instr × Val) :=
  build_call_named_mono env "malloc" (.constInt 64 n)

/-- `build_malloc_of_type`: heap-allocate space for one value of type `typ`
and bitcast the pointer to `typ*`. -/
def build_malloc_of_type (defs : StructDefs) (env : Env) (typ : LLType) :
    Option (List Instr × Val) := do
  let (tr, p) ← build_malloc env (size_of defs typ)
  some (tr, .bitcast p (.ptr typ))

/-- `build_val_on_heap`: put `val` on the heap and return the pointer to it. -/
def build_val_on_heap (defs : StructDefs) (env : Env) (val : Val) :
    Option (List Instr × Val) := do
  let t ← val.typeOf defs
  let (tr, p) ← build_malloc_of_type defs env t
  some (tr ++ [.store val p], p)

/-- `build_rc`: build a reference counting pointer with contents `val`; the
count starts at 1. -/
def build_rc (defs : StructDefs) (env : Env) (val : Val) :
    Option (List Instr × Val) := do
  let s ← build_struct defs [.constInt 64 1, val]
  build_val_on_heap defs env s

/-- `gen_str_`: lower a string literal — global string constant, GEP to its
first byte, `{u64 len, u8*}` pair, and a call to the `str_lit_to_string`
runtime converter (which must be a declared global function, else ICE). -/
def gen_str_ (defs : StructDefs) (env : Env) (s : String) :
    Option (List Instr × Val) := do
  let str_ptr := Val.gep (.strGlobal s) [0, 0]
  let sv ← build_struct defs [.constInt 64 s.utf8ByteSize, str_ptr]
  match env.get_global_mono "str_lit_to_string" with
  | some (.func glob) => some ([.callI glob.func [sv]], .call glob.func [sv])
  | _ => none

/-- `build_panic`: lower the message string and call `_panic` on it. -/
def build_panic (defs : StructDefs) (env : Env) (s : String) :
    Option (List Instr) := do
  let (tr1, sc) ← gen_str_ defs env s
  let (tr2, _) ← build_call_named_mono env "_panic" sc
  some (tr1 ++ tr2)

/-! ## Error codes and runtime errors -/

/-- Error codes (`ErrCode` of the root `lib` module). -/
structure ErrCode where
  module : String
  number : Nat

/-- Modelled from the spec: an error code renders as `MODULE-N`
(the spec names the non-exhaustive-patterns code `RUNTIME-0`). -/
def ErrCode.display (c : ErrCode) : String :=
  c.module ++ ("-" ++ toString c.number)

/-- Modelled from the spec: `SrcPos::error_string` (missing front-end
diagnostics module) formats an error message that includes the source
position and the error code. -/
def SrcPos.error_string (pos : SrcPos) (code : ErrCode) (msg : String) : String :=
  pos ++ (": [" ++ (code.display ++ ("] " ++ msg)))

/-- Runtime errors emitted as IR (`RuntErr`). -/
inductive RuntErr where
  | nonExhaustPatts (pos : SrcPos)

/-- `RuntErr::code`: non-exhaustive patterns is `RUNTIME` number 0. -/
def RuntErr.code : RuntErr → ErrCode
  | .nonExhaustPatts _ => ⟨"RUNTIME", 0⟩

/-- `RuntErr::to_string`. -/
def RuntErr.toMsgString : RuntErr → String
  | .nonExhaustPatts pos =>
    SrcPos.error_string pos (RuntErr.code (.nonExhaustPatts pos))
      "Non-exhaustive patterns in match. Fell all the way through!"

/-! ## The elaborated AST consumed by the code generator -/

/-- A binding's type signature: a (possibly empty) list of quantified type
parameters over a body type.  `is_monomorphic` holds when there are no
parameters. -/
structure TypeScheme where
  params : List String
  body : Ty

/-- `Polytype::is_monomorphic`. -/
def TypeScheme.is_monomorphic (s : TypeScheme) : Bool := s.params.isEmpty

/-- Patterns of `match` cases. -/
inductive Pattern where
  | nilP (pos : SrcPos)
  | numLitP (lit : String) (typ : Ty) (pos : SrcPos)
  | strLitP (lit : String) (pos : SrcPos)
  | variableP (ident : String) (pos : SrcPos)
  | deconstr (constr : String) (subpatts : List Pattern)

mutual

/-- The variables bound by a pattern (`Pattern::variables`, by idents). -/
def Pattern.variablesOf : Pattern → List String
  | .nilP _ => []
  | .numLitP _ _ _ => []
  | .strLitP _ _ => []
  | .variableP ident _ => [ident]
  | .deconstr _ subs => Pattern.variablesOfList subs

def Pattern.variablesOfList : List Pattern → List String
  | [] => []
  | p :: ps => Pattern.variablesOf p ++ Pattern.variablesOfList ps

end

mutual

/-- Elaborated expressions (`ast::Expr`); every node carries its type.
`TypeAscript` does not appear: all type ascriptions are replaced before code
generation (`gen_expr` marks it unreachable). -/
inductive Expr where
  | nilE (pos : SrcPos)
  | numLit (lit : String) (typ : Ty) (pos : SrcPos)
  | strLit (lit : String) (pos : SrcPos)
  | boolE (val : Bool) (pos : SrcPos)
  | variableE (ident : String) (typ : Ty)
  | appE (func arg : Expr) (typ : Ty)
  | ifE (predicate consequent alternative : Expr) (typ : Ty)
  | lambda (param_ident : String) (body : Expr) (typ : Ty)
  | letE (bindings : List Binding) (body : Expr) (typ : Ty)
  | consE (car cdr : Expr) (typ : Ty)
  | carE (expr : Expr) (typ : Ty)
  | cdrE (expr : Expr) (typ : Ty)
  | cast (expr : Expr) (typ : Ty) (pos : SrcPos)
  | new (constr : String) (members : List Expr) (typ : Ty) (pos : SrcPos)
  | matchE (expr : Expr) (cases : List Case) (typ : Ty) (pos : SrcPos)

/-- A binding (`ast::Binding`): identifier, signature, value, and — for a
polymorphic signature — the map from instantiations to specialized values. -/
inductive Binding where
  | mk (ident : String) (pos : SrcPos) (sig : TypeScheme) (val : Expr)
      (mono_insts : List (Inst × Expr))

/-- A `match` case. -/
inductive Case where
  | mk (patt : Pattern) (body : Expr)

end

/-- The identifier of a binding. -/
def Binding.ident : Binding → String
  | .mk i _ _ _ _ => i

/-- The source position of a binding. -/
def Binding.pos : Binding → SrcPos
  | .mk _ p _ _ _ => p

/-- The signature of a binding. -/
def Binding.sig : Binding → TypeScheme
  | .mk _ _ s _ _ => s

/-- The value of a binding. -/
def Binding.val : Binding → Expr
  | .mk _ _ _ v _ => v

/-- The monomorphic instantiations of a polymorphic binding. -/
def Binding.mono_insts : Binding → List (Inst × Expr)
  | .mk _ _ _ _ m => m

/-- The pattern of a case. -/
def Case.patt : Case → Pattern
  | .mk p _ => p

/-- The body of a case. -/
def Case.body : Case → Expr
  | .mk _ b => b

/-- `Expr::as_var`: the ident and type when the expression is a variable. -/
def Expr.as_var : Expr → Option (String × Ty)
  | .variableE ident typ => some (ident, typ)
  | _ => none

/-! ## Free-variable analysis -/

/-- The instantiations of a free variable: a set of (instantiation
arguments, canonicalized type) pairs (`Instantiations`, a `BTreeSet`). -/
abbrev Insts := List (Inst × Ty)

/-- `FreeVarInsts`: map from free-variable name to its instantiations. -/
abbrev FreeVarInsts := List (String × Insts)

/-- Set union of instantiation sets (`BTreeSet::extend`). -/
def instsUnion (a b : Insts) : Insts :=
  a ++ b.filter (fun x => decide (x ∉ a))

/-- Insert instantiations for one name, merging with any existing entry
(`fvs.entry(k).or_insert(BTreeSet::new()).extend(v)`). -/
def fvInsert (m : FreeVarInsts) (k : String) (v : Insts) : FreeVarInsts :=
  match alookup m k with
  | some _ => m.map (fun p => if p.1 = k then (p.1, instsUnion p.2 v) else p)
  | none => m ++ [(k, v)]

/-- Merge two free-variable maps, instantiation sets unioned pointwise
(the fold inside `free_vars_in_exprs`). -/
def fvMerge (m1 m2 : FreeVarInsts) : FreeVarInsts :=
  m2.foldl (fun acc p => fvInsert acc p.1 p.2) m1

/-- `BTreeMap::remove` of one key. -/
def fvRemove (m : FreeVarInsts) (k : String) : FreeVarInsts :=
  aremove m k

/-- `BTreeMap::extend`: insert every entry of `m2`, replacing (not merging)
the instantiation set of a name already present. -/
def fvOverwrite (m1 m2 : FreeVarInsts) : FreeVarInsts :=
  m2.foldl
    (fun acc p =>
      match alookup acc p.1 with
      | some _ => acc.map (fun q => if q.1 = p.1 then (q.1, p.2) else q)
      | none => acc ++ [p])
    m1

/-- The removal loop of the `Let` case of `free_vars_in_expr`: remove every
bound ident. -/
def free_vars_remove_idents (fvs : FreeVarInsts) : List Binding → FreeVarInsts
  | [] => fvs
  | b :: rest => free_vars_remove_idents (fvRemove fvs b.ident) rest

mutual

/-- `free_vars_in_expr`: the free variables of `e`, each mapped to the
instantiations at which it occurs free. -/
def free_vars_in_expr : Expr → FreeVarInsts
  | .nilE _ => []
  | .numLit _ _ _ => []
  | .strLit _ _ => []
  | .boolE _ _ => []
  | .variableE ident typ =>
    [(ident, [(typ.get_inst_args.getD [], typ.canonicalize)])]
  | .appE f a _ => fvMerge (free_vars_in_expr f) (free_vars_in_expr a)
  | .ifE p c a _ =>
    fvMerge (fvMerge (free_vars_in_expr p) (free_vars_in_expr c))
      (free_vars_in_expr a)
  | .lambda param body _ => fvRemove (free_vars_in_expr body) param
  | .letE bindings body _ =>
    let fvs := fvMerge (free_vars_in_expr body) (free_vars_in_bindings bindings)
    free_vars_remove_idents fvs bindings
  | .consE car cdr _ => fvMerge (free_vars_in_expr car) (free_vars_in_expr cdr)
  | .carE e _ => free_vars_in_expr e
  | .cdrE e _ => free_vars_in_expr e
  | .cast e _ _ => free_vars_in_expr e
  | .new _ members _ _ => free_vars_in_exprList members
  | .matchE e cases _ _ => free_vars_in_cases (free_vars_in_expr e) cases
termination_by e => sizeOf e
decreasing_by all_goals (simp_wf; try omega)

/-- The `free_vars_in_exprs` fold over a list of expressions. -/
def free_vars_in_exprList : List Expr → FreeVarInsts
  | [] => []
  | e :: es => fvMerge (free_vars_in_expr e) (free_vars_in_exprList es)
termination_by es => sizeOf es
decreasing_by all_goals (simp_wf; try omega)

/-- The expressions contributed by one `let` binding: the value when
monomorphic, else the specialized values of `mono_insts`. -/
def free_vars_in_binding : Binding → FreeVarInsts
  | .mk _ _ sig val mono_insts =>
    if sig.is_monomorphic then free_vars_in_expr val
    else free_vars_in_mono_insts mono_insts
termination_by b => sizeOf b
decreasing_by all_goals (simp_wf; try omega)

def free_vars_in_bindings : List Binding → FreeVarInsts
  | [] => []
  | b :: rest => fvMerge (free_vars_in_binding b) (free_vars_in_bindings rest)
termination_by bs => sizeOf bs
decreasing_by all_goals (simp_wf; try omega)

def free_vars_in_mono_insts : List (Inst × Expr) → FreeVarInsts
  | [] => []
  | (_, e) :: rest => fvMerge (free_vars_in_expr e) (free_vars_in_mono_insts rest)
termination_by ps => sizeOf ps
decreasing_by all_goals (simp_wf; try omega)

/-- `free_vars_in_match`: free vars of the matchee, then for each case the
free vars of the body minus the pattern's variables, folded in with
`BTreeMap::extend` (which overwrites on a repeated name). -/
def free_vars_in_cases (fvs : FreeVarInsts) : List Case → FreeVarInsts
  | [] => fvs
  | .mk patt body :: rest =>
    let case_fvs :=
      (Pattern.variablesOf patt).foldl (fun acc v => fvRemove acc v)
        (free_vars_in_expr body)
    free_vars_in_cases (fvOverwrite fvs case_fvs) rest
termination_by cs => sizeOf cs
decreasing_by all_goals (simp_wf; try omega)

end

/-- `free_vars_in_lambda`: the free variables of the body minus the
parameter (the `Lambda` case of `free_vars_in_expr` calls this; it is
definitionally the inlined case above). -/
def free_vars_in_lambda (param_ident : String) (body : Expr) : FreeVarInsts :=
  fvRemove (free_vars_in_expr body) param_ident

/-- `free_vars_in_lambda_filter_globals`: keep only the free variables bound
in the current local environment (globals need no capture). -/
def free_vars_in_lambda_filter_globals (env : Env) (param_ident : String)
    (body : Expr) : FreeVarInsts :=
  (free_vars_in_lambda param_ident body).filter
    (fun p => (alookup env.locals p.1).isSome)

/-! ## ADT definitions and type lowering (`gen_type` and the ADT cache) -/

/-- A variant of an ADT definition: name and ordered member types (written
over the ADT's type parameters). -/
structure AdtVariant where
  name : String
  members : List Ty

/-- An ADT definition. -/
structure AdtDef where
  name : String
  params : List String
  variants : List AdtVariant

/-- The ADT definitions of a program (`ast::Adts::defs`). -/
structure Adts where
  defs : List (String × AdtDef)

mutual

/-- Substitute instantiation types for type parameters. -/
def substTy (σ : List (String × Ty)) : Ty → Ty
  | .var n => (alookup σ n).getD (.var n)
  | .const n none => .const n none
  | .const n (some args) => .const n (some (substTyList σ args))
  | .app c args => .app c (substTyList σ args)

def substTyList (σ : List (String × Ty)) : List Ty → List Ty
  | [] => []
  | t :: ts => substTy σ t :: substTyList σ ts

end

/-- The right-folded nested-`Cons` type of a member list (`Nil` when empty,
the member itself when single). -/
def consFoldTy : List Ty → Ty
  | [] => .const "Nil" none
  | [t] => t
  | t :: ts => .app "Cons" [t, consFoldTy ts]

/-- Modelled from the spec: `type_with_inst_of_variant` — the type of a
variant's payload at an instantiation: members with the ADT's parameters
substituted, combined as a nested right-folded cons (or `Nil` if none). -/
def AdtDef.type_with_inst_of_variant (adt : AdtDef) (v : AdtVariant)
    (inst : List Ty) : Ty :=
  consFoldTy (v.members.map (substTy (adt.params.zip inst)))

mutual

/-- All type-constructor names mentioned by a type. -/
def tyNames : Ty → List String
  | .const n none => [n]
  | .const n (some args) => n :: tyNamesList args
  | .app c args => c :: tyNamesList args
  | .var _ => []

def tyNamesList : List Ty → List String
  | [] => []
  | t :: ts => tyNames t ++ tyNamesList ts

end

/-- The type names directly mentioned by the variant members of an ADT. -/
def directMentions (adt : AdtDef) : List String :=
  adt.variants.flatMap (fun v => v.members.flatMap tyNames)

/-- One step of the reachability closure over the ADT definition graph. -/
def reachStep (adts : Adts) (seen : List String) : List String :=
  (seen ++
      seen.flatMap (fun n =>
        match alookup adts.defs n with
        | some a => directMentions a
        | none => [])).dedup

/-- Modelled from the spec: `adt_is_recursive` — an ADT is recursive iff the
transitive closure of its variant members mentions its own name. -/
def Adts.adt_is_recursive (adts : Adts) (adt : AdtDef) : Bool :=
  decide (adt.name ∈
    Nat.iterate (reachStep adts) (adts.defs.length + 1) (directMentions adt))

/-- The named-type caches of the code generator: the named-struct bodies of
the module plus the per-`(name, inst)` ADT caches `adts` / `adts_inner`. -/
structure NamedTypes where
  structDefs : StructDefs
  adts : List ((String × List Ty) × LLType)
  adtsInner : List ((String × List Ty) × String)

/-- The caches as `CodeGenerator::new` leaves them. -/
def NamedTypes.initial : NamedTypes := ⟨baseStructDefs, [], []⟩

/-- Allocate a named-struct name: LLVM uniquifies a requested name that is
already taken by appending a numeric suffix. -/
def freshStructName (defs : StructDefs) (base : String) : String :=
  if (alookup defs base).isSome then base ++ "." ++ toString defs.length else base

/-- Set the elements of a (previously opaque) named struct. -/
def setStructDef (defs : StructDefs) (name : String) (fields : List LLType) :
    StructDefs :=
  defs.map (fun p => if p.1 = name then (p.1, some fields) else p)

/-- Rust `Iterator::max_by_key` over sizes (the last maximal element wins on
ties), with `unwrap_or(nil)` for an empty list. -/
def maxBySize (defs : StructDefs) (ts : List LLType) : LLType :=
  match ts with
  | [] => tyNil
  | t :: rest =>
    rest.foldl
      (fun best u => if size_of defs best ≤ size_of defs u then u else best) t

mutual

/-- `gen_type`: lower a source type to an LLVM type, threading the named-type
caches.  The `fuel` bounds recursion through ADT definitions (`none` embeds
both the ICE panics and fuel exhaustion; the source terminates because the
ADT cache is seeded before the recursive struct is populated, so any fuel
beyond the ADT graph's depth is enough). -/
def gen_type (adts : Adts) : Nat → NamedTypes → Ty → Option (LLType × NamedTypes)
  | 0, _, _ => none
  | fuel + 1, st, t =>
    match t with
    | .const name _ =>
      if name = "Int8" then some (.int 8, st)
      else if name = "Int16" then some (.int 16, st)
      else if name = "Int32" then some (.int 32, st)
      else if name = "Int64" then some (.int 64, st)
      else if name = "IntPtr" then some (.int 64, st)
      else if name = "UIntPtr" then some (.int 64, st)
      else if name = "UInt8" then some (.int 8, st)
      else if name = "UInt16" then some (.int 16, st)
      else if name = "UInt32" then some (.int 32, st)
      else if name = "UInt64" then some (.int 64, st)
      else if name = "Bool" then some (.int 1, st)
      else if name = "Float32" then some (.float32, st)
      else if name = "Float64" then some (.float64, st)
      else if name = "Nil" then some (tyNil, st)
      else if name = "RealWorld" then some (tyRealWorld, st)
      else if (alookup adts.defs name).isSome then
        get_or_gen_adt_by_name_and_inst adts fuel st name []
      else none
    | .app ctor args =>
      if ctor = "->" then
        match args with
        | [a, r] => do
          let (rt, st1) ← gen_type adts fuel st r
          let (at_, st2) ← gen_type adts fuel st1 a
          some (.struct_ [.ptr (.funcT rt [type_generic_ptr, at_]),
                          rc_generic], st2)
        | _ => none
      else if ctor = "Cons" then
        match args with
        | [a, b] => do
          let (la, st1) ← gen_type adts fuel st a
          let (lb, st2) ← gen_type adts fuel st1 b
          some (.struct_ [la, lb], st2)
        | _ => none
      else if ctor = "Ptr" then
        match args with
        | [a] => do
          let (la, st1) ← gen_type adts fuel st a
          some (.ptr la, st1)
        | _ => none
      else if (alookup adts.defs ctor).isSome then
        get_or_gen_adt_by_name_and_inst adts fuel st ctor args
      else none
    | .var _ => none

/-- The cache seeding of a recursive ADT before its inner struct is
populated: declare the opaque inner named struct, record it in `adts_inner`,
and insert the RC-pointer type `{i64, inner}*` under the `(name, inst)`
key. -/
def seedRecursiveAdt (st : NamedTypes) (name : String) (inst : List Ty)
    (innerName : String) : NamedTypes :=
  { st with
    structDefs := st.structDefs ++ [(innerName, none)],
    adtsInner := st.adtsInner ++ [((name, inst), innerName)],
    adts := st.adts ++ [((name, inst), type_rc (.namedStruct innerName))] }

/-- `get_or_gen_adt_by_name_and_inst`: the cached LLVM type of the ADT
`(name, inst)`.  On a miss: for a recursive ADT, declare the opaque inner
struct and insert the RC-pointer type into the cache (`seedRecursiveAdt`)
*before* populating the inner struct's elements; for a non-recursive ADT,
build the tagged struct and cache it; then return via the (now hitting)
cache lookup. -/
def get_or_gen_adt_by_name_and_inst (adts : Adts) :
    Nat → NamedTypes → String → List Ty → Option (LLType × NamedTypes)
  | 0, _, _, _ => none
  | fuel + 1, st, name, inst =>
    match alookup st.adts (name, inst) with
    | some t => some (t, st)
    | none => do
      let adt ← alookup adts.defs name
      if adts.adt_is_recursive adt then do
        let innerName := freshStructName st.structDefs (name ++ "_in")
        let st3 ←
          populate_recursive_adt adts fuel
            (seedRecursiveAdt st name inst innerName) adt inst innerName
        get_or_gen_adt_by_name_and_inst adts fuel st3 name inst
      else do
        let (t, st1) ← gen_adt adts fuel st adt inst
        get_or_gen_adt_by_name_and_inst adts fuel
          { st1 with adts := st1.adts ++ [((name, inst), t)] } name inst

/-- `gen_adt`: a non-recursive ADT is the named struct
`{i16 tag, largest-variant-type}`. -/
def gen_adt (adts : Adts) :
    Nat → NamedTypes → AdtDef → List Ty → Option (LLType × NamedTypes)
  | 0, _, _, _ => none
  | fuel + 1, st, adt, inst => do
    let (largest, st1) ← gen_largest_adt_variant_type adts fuel st adt inst
    let sname := freshStructName st1.structDefs adt.name
    let st2 : NamedTypes :=
      { st1 with structDefs := st1.structDefs ++ [(sname, some [.int 16, largest])] }
    some (.namedStruct sname, st2)

/-- `gen_largest_adt_variant_type`: lower every variant's payload type and
take the one of maximal data-layout size. -/
def gen_largest_adt_variant_type (adts : Adts) :
    Nat → NamedTypes → AdtDef → List Ty → Option (LLType × NamedTypes)
  | 0, _, _, _ => none
  | fuel + 1, st, adt, inst => do
    let (vts, st1) ← gen_variant_types adts fuel st adt adt.variants inst
    some (maxBySize st1.structDefs vts, st1)

/-- Lower the payload types of a list of variants in order. -/
def gen_variant_types (adts : Adts) :
    Nat → NamedTypes → AdtDef → List AdtVariant → List Ty →
    Option (List LLType × NamedTypes)
  | 0, _, _, _, _ => none
  | _ + 1, st, _, [], _ => some ([], st)
  | fuel + 1, st, adt, v :: vs, inst => do
    let t := adt.type_with_inst_of_variant v inst
    let (lt, st1) ← gen_type adts fuel st t
    let (lts, st2) ← gen_variant_types adts fuel st1 adt vs inst
    some (lt :: lts, st2)

/-- `populate_recursive_adt`: compute the largest variant type and set the
elements of the (still opaque, else ICE) inner named struct to
`{i16 tag, largest}`. -/
def populate_recursive_adt (adts : Adts) :
    Nat → NamedTypes → AdtDef → List Ty → String → Option NamedTypes
  | 0, _, _, _, _ => none
  | fuel + 1, st, adt, inst, innerName => do
    let (largest, st1) ← gen_largest_adt_variant_type adts fuel st adt inst
    match alookup st1.structDefs innerName with
    | some none =>
      some { st1 with
             structDefs := setStructDef st1.structDefs innerName [.int 16, largest] }
    | _ => none

end

/-- Lower a list of types in order, threading the caches. -/
def gen_type_list (adts : Adts) (fuel : Nat) :
    NamedTypes → List Ty → Option (List LLType × NamedTypes)
  | st, [] => some ([], st)
  | st, t :: ts => do
    let (lt, st1) ← gen_type adts fuel st t
    let (lts, st2) ← gen_type_list adts fuel st1 ts
    some (lt :: lts, st2)

/-- `captures_type_of_free_vars`: the anonymous struct of the lowered types
of every capture, in the iteration order of the free-variable map. -/
def captures_type_of_free_vars (adts : Adts) (fuel : Nat) (st : NamedTypes)
    (free_vars : FreeVarInsts) : Option (LLType × NamedTypes) := do
  let (ts, st1) ←
    gen_type_list adts fuel st (free_vars.flatMap (fun p => p.2.map (·.2)))
  some (.struct_ ts, st1)

/-! ## Closure conversion (lambda lowering and the two-phase binding pass) -/

/-- `gen_closure_without_captures`: phase-A lowering of a lambda — compute
the filtered free variables, emit the inner function (the inner-function
emission `gen_closure_func` swaps the builder to the fresh function and back
without touching the current block, so our embedding takes its resulting
function value `fp` as a parameter), heap-allocate `size_of(captures_type)`
bytes left undefined, bitcast the raw pointer to the generic RC type, and
form the `{fp, generic_rc}` closure struct. -/
def gen_closure_without_captures (adts : Adts) (fuel : Nat) (st : NamedTypes)
    (env : Env) (param_ident : String) (body : Expr) (fp : Val) :
    Option (List Instr × Val × FreeVarInsts × NamedTypes) := do
  let free_vars := free_vars_in_lambda_filter_globals env param_ident body
  let (captures_type, st1) ← captures_type_of_free_vars adts fuel st free_vars
  let (tr, undef_heap_captures) ←
    build_malloc env (size_of st1.structDefs captures_type)
  let undef_heap_captures_generic_rc := build_as_generic_rc undef_heap_captures
  let closure ← build_struct st1.structDefs [fp, undef_heap_captures_generic_rc]
  some (tr, closure, free_vars, st1)

/-- The capture values of `gen_closure_env_capture`: for every free variable
and instantiation, the current local environment's value (`none` embeds the
`ICE: Free var not found in env` panic). -/
def capture_vals (env : Env) : FreeVarInsts → Option (List Val)
  | [] => some []
  | (fv, insts) :: rest => do
    let here ← insts.mapM (fun p => env.get_local fv p.1)
    let more ← capture_vals env rest
    some (here ++ more)

/-- `gen_closure_env_capture`: the struct of all captured values. -/
def gen_closure_env_capture (defs : StructDefs) (env : Env)
    (free_vars : FreeVarInsts) : Option Val := do
  let vals ← capture_vals env free_vars
  build_struct defs vals

/-- `closure_capture_env`: phase-B fixup — recompute the captures struct from
the (now fully populated) environment, extract the closure's captures field,
bitcast it to the concrete RC type of the captures, GEP field 1 (the RC
contents), and store the captures through it. -/
def closure_capture_env (defs : StructDefs) (env : Env) (closure : Val)
    (free_vars : FreeVarInsts) : Option (List Instr) := do
  let captures ← gen_closure_env_capture defs env free_vars
  let ct ← captures.typeOf defs
  let closure_captures_rc_generic := Val.extractValue closure 1
  let closure_captures_rc := Val.bitcast closure_captures_rc_generic (type_rc ct)
  let closure_captures_ptr := Val.gep closure_captures_rc [0, 1]
  some [.store captures closure_captures_ptr]

/-- `gen_lambda`: ordinary (non-binding) lambda lowering — capture the free
variables now, wrap them in an RC pointer via `build_rc`, and form the
closure struct. -/
def gen_lambda (defs : StructDefs) (env : Env) (param_ident : String)
    (body : Expr) (fp : Val) : Option (List Instr × Val) := do
  let free_vars := free_vars_in_lambda_filter_globals env param_ident body
  let captures ← gen_closure_env_capture defs env free_vars
  let (tr, captures_rc) ← build_rc defs env captures
  let captures_rc_generic := Val.bitcast captures_rc rc_generic
  let r ← build_struct defs [fp, captures_rc_generic]
  some (tr, r)

/-- One flattened lambda entry of phase A of `gen_bindings`: emit the closure
with undefined captures and install it into the environment under
`(name, inst)`. -/
def gen_bindings_phaseA_step (adts : Adts) (fuel : Nat) (st : NamedTypes)
    (env : Env) (name : String) (inst : Inst) (param_ident : String)
    (body : Expr) (fp : Val) :
    Option (List Instr × Env × FreeVarInsts × NamedTypes) := do
  let (tr, closure, free_vars, st1) ←
    gen_closure_without_captures adts fuel st env param_ident body fp
  let env1 ← env.add_local_inst name inst closure
  some (tr, env1, free_vars, st1)

/-! ## Function application (`gen_app`) -/

/-- `is_arithm_binop`. -/
def is_arithm_binop (op_name : String) : Bool :=
  op_name == "add" || op_name == "sub" || op_name == "mul" || op_name == "div"

/-- `is_relational_binop`. -/
def is_relational_binop (op_name : String) : Bool :=
  op_name == "eq" || op_name == "lt"

/-- `gen_app`: if the operator is a variable whose `(name, inst)` resolves to
a global function and is not a generic arithmetic/relational primitive, emit
a direct one-argument call to the naked function; otherwise lower the
operator to a closure value and apply it via `build_app`.  The lowering of
the argument and (in the closure case) of the operator is abstracted by the
already-lowered values `arg` and `funcVal`. -/
def gen_app (env : Env) (funcExpr : Expr) (arg funcVal : Val) :
    List Instr × Val :=
  let inst := (funcExpr.as_var.map (fun v => v.2.get_inst_args.getD [])).getD []
  match funcExpr.as_var with
  | some (name, _) =>
    match env.get name inst with
    | some (.global (.func g)) =>
      if ¬ is_arithm_binop name ∧ ¬ is_relational_binop name then
        ([.callI g.func [arg]], .call g.func [arg])
      else build_app funcVal arg
    | _ => build_app funcVal arg
  | none => build_app funcVal arg

/-! ## Cast lowering (`gen_cast`) -/

/-- The IR conversions a cast can lower to (`noop` is the same-width integer
case, which returns the operand unchanged). -/
inductive CastOp where
  | sext
  | zext
  | trunc
  | noop
  | siToFp
  | uiToFp
  | fpToSi
  | fpToUi
  | fpCast
deriving DecidableEq

/-- The error classes of the code generator: a user error printed at a source
position, or an internal compiler error. -/
inductive CgErr where
  | user (pos : SrcPos) (msg : String)
  | ice (msg : String)

/-- The conversion-selection logic of `gen_cast`, exactly as the source
nests it: signed source → integer target by size comparison, or float
target; unsigned source likewise with `zext`; float source → float, signed
or unsigned target; anything else has no conversion. -/
def gen_cast_sel (ptrSize : Nat) (from_type to_type : Ty) : Option CastOp :=
  match from_type.int_size ptrSize with
  | some from_size =>
    match (to_type.int_size ptrSize).orElse (fun _ => to_type.uint_size ptrSize) with
    | some to_size =>
      some (if from_size < to_size then .sext
            else if to_size < from_size then .trunc else .noop)
    | none => if to_type.is_float then some .siToFp else none
  | none =>
    match from_type.uint_size ptrSize with
    | some from_size =>
      match (to_type.int_size ptrSize).orElse (fun _ => to_type.uint_size ptrSize) with
      | some to_size =>
        some (if from_size < to_size then .zext
              else if to_size < from_size then .trunc else .noop)
      | none => if to_type.is_float then some .uiToFp else none
    | none =>
      if from_type.is_float then
        if to_type.is_float then some .fpCast
        else if to_type.is_int then some .fpToSi
        else if to_type.is_uint then some .fpToUi
        else none
      else none

/-- `gen_cast`: select the conversion; if none is legal, fail with the
user-visible `Invalid cast` error at the cast expression's position. -/
def gen_cast (ptrSize : Nat) (from_type to_type : Ty) (pos : SrcPos) :
    Except CgErr CastOp :=
  match gen_cast_sel ptrSize from_type to_type with
  | some op => .ok op
  | none => .error (.user pos "Invalid cast")

/-! ## The `main` verification of `gen_executable` -/

/-- `TYPE_NIL`. -/
def TYPE_NIL : Ty := .const "Nil" none

/-- Modelled from the spec: `Type::new_io t` is
`(-> RealWorld (Cons t RealWorld))`. -/
def type_new_io (t : Ty) : Ty :=
  .app "->" [.const "RealWorld" none, .app "Cons" [t, .const "RealWorld" none]]

/-- The type `gen_executable` expects of `main`:
`(RealWorld -> (Cons Nil RealWorld))`. -/
def expectedMainType : Ty := type_new_io TYPE_NIL

/-- The outcome of the `main` verification at the top of `gen_executable`. -/
inductive MainCheckResult where
  | errNotFound
  | errWrongTypeMono (pos : SrcPos)
  | errWrongTypePoly (pos : SrcPos)
  | ok
deriving DecidableEq

/-- The `main` verification of `gen_executable`: find the binding named
`main` (else `error_exit`); if its signature body differs from the expected
type, report at its position — `error_exit` when monomorphic, printed error
plus annotation help then `exit` when polymorphic. -/
def check_main (globals : List Binding) : MainCheckResult :=
  match globals.find? (fun b => b.ident == "main") with
  | none => .errNotFound
  | some main =>
    if main.sig.body ≠ expectedMainType then
      if main.sig.is_monomorphic then .errWrongTypeMono main.pos
      else .errWrongTypePoly main.pos
    else .ok

/-! ## The `match` block skeleton (`gen_match`) -/

/-- The block/branch skeleton `gen_match` synthesizes.  Per-case pattern and
body emission (`gen_match_case`) is abstracted by `caseResults`: for each
user case, its lowered value and the block that branches to `case_final` on
success. -/
structure MatchEmission where
  entryBr : Instr
  defaultInstrs : List Instr
  phiNodes : List (Val × String)
  result : Val

/-- `gen_match`'s block skeleton: branch to `case_0` (ICE when there are no
cases); each case contributes `(value, last block)` to the phi and a branch
to `case_final`; the synthesized `case_default` block builds a `_panic` call
with the non-exhaustive-patterns message for the match's position and
branches to `case_final`, contributing `undef` of the match's type to the
final phi. -/
def gen_match_skeleton (adts : Adts) (fuel : Nat) (st : NamedTypes) (env : Env)
    (caseResults : List (Val × String)) (pos : SrcPos) (mTyp : Ty) :
    Option (MatchEmission × NamedTypes) := do
  if caseResults.isEmpty then none
  else do
    let panicTr ←
      build_panic st.structDefs env (RuntErr.toMsgString (.nonExhaustPatts pos))
    let (ret_type, st1) ← gen_type adts fuel st mTyp
    let phiNodes := caseResults ++ [(Val.undef ret_type, "case_default")]
    let (ret_type2, st2) ← gen_type adts fuel st1 mTyp
    some
      ({ entryBr := .br "case_0",
         defaultInstrs := panicTr ++ [.br "case_final"],
         phiNodes := phiNodes,
         result := .phi ret_type2 phiNodes },
       st2)

/-! ## The program entry wrapper (`gen_executable` tail) -/

/-- One flattened monomorphic global-variable binding, with the emission of
its initializer expression (`gen_expr`) abstracted as a trace and value. -/
structure GlobVarInit where
  name : String
  inst : Inst
  initTrace : List Instr
  initVal : Val

/-- `gen_glob_var_inits`: for every flattened global-variable binding, in
order: look up its declared global variable (ICE when missing or not a
variable), emit its initializer, and store the value through the global. -/
def gen_glob_var_inits (env : Env) : List GlobVarInit → Option (List Instr)
  | [] => some []
  | b :: rest => do
    let glob ← env.get_global b.name b.inst
    match glob with
    | .var v => do
      let more ← gen_glob_var_inits env rest
      some ((b.initTrace ++ [.store b.initVal v]) ++ more)
    | .func _ => none

/-- The population of the wrapping entry-point `main` at the end of
`gen_executable`: at its entry block, run the global-variable initializers in
binding order, call the user `main` with a fresh undef `RealWorld` token, and
return the constant `0 : i32`. -/
def gen_executable_main_entry (env : Env) (var_bindings : List GlobVarInit) :
    Option (List Instr) := do
  let inits ← gen_glob_var_inits env var_bindings
  let (callTr, _) ← build_call_named_mono env "main" (.undef tyRealWorld)
  some (inits ++ callTr ++ [.ret (.constInt 32 0)])

/-! ## Observations over emitted code (projections used by the theorems) -/

/-- Whether an LLVM type is a pointer type. -/
def LLType.isPointer : LLType → Bool
  | .ptr _ => true
  | _ => false

/-- Whether an instruction is a store. -/
def Instr.isStore : Instr → Bool
  | .store _ _ => true
  | _ => false

/-- Evaluate the field `j` of an `insertvalue` chain. -/
def Val.fieldAt : Val → Nat → Option Val
  | .insertValue agg v i, j => if i = j then some v else Val.fieldAt agg j
  | _, _ => none

/-- The (integer) argument of the first call instruction of a trace — for a
trace beginning with a `malloc` call, the requested allocation size. -/
def firstCallArgNat : List Instr → Option Nat
  | [] => none
  | .callI _ [.constInt _ n] :: _ => some n.toNat
  | _ :: rest => firstCallArgNat rest

/-- The byte offset addressed by the aggregate indices of a GEP below a base
type (struct paths only; enough for the RC-contents GEPs we observe). -/
def gepByteOffset (defs : StructDefs) : LLType → List Nat → Option Nat
  | _, [] => some 0
  | t, i :: rest => do
    let fs ← structFields defs t
    let f ← fs.get? i
    let off ← gepByteOffset defs f rest
    some (structFieldOffset defs layoutFuel fs i + off)

/-- The byte footprint of a store through a `gep p [0, i...]` pointer:
`(byte offset from the pointee's start, stored size)`. -/
def storeFootprint (defs : StructDefs) : Instr → Option (Nat × Nat)
  | .store v (.gep p idxs) => do
    let pt ← p.typeOf defs
    match pt, idxs with
    | .ptr base, 0 :: rest => do
      let off ← gepByteOffset defs base rest
      let vt ← v.typeOf defs
      some (off, size_of defs vt)
    | _, _ => none
  | _ => none

/-- `sub` occurs as a substring of `s`. -/
def StrContains (s sub : String) : Prop :=
  ∃ a b : String, s = a ++ (sub ++ b)

/-! ## Spec-side definitions for refinement claims -/

/-- The three numeric classes of the spec's cast description. -/
inductive NumClass where
  | signedInt
  | unsignedInt
  | floating
deriving DecidableEq

/-- Classification of a type as signed int, unsigned int, or float, written
from the spec's words (for the cast refinement claim). -/
def numClassOf (ptrSize : Nat) (t : Ty) : Option NumClass :=
  if (t.int_size ptrSize).isSome then some .signedInt
  else if (t.uint_size ptrSize).isSome then some .unsignedInt
  else if t.is_float then some .floating
  else none

/-- The bit width of an integer-classified type. -/
def numWidth (ptrSize : Nat) (t : Ty) : Option Nat :=
  (t.int_size ptrSize).orElse (fun _ => t.uint_size ptrSize)

/-- The cast-selection table written from the spec's words: classify source
and target as signed int, unsigned int, or float, then select among
sign/zero-extend, truncate, sint→fp, uint→fp, fp→sint, fp→uint or fp-cast;
no legal conversion otherwise. -/
def cast_select_spec (ptrSize : Nat) (from_type to_type : Ty) : Option CastOp := do
  let fc ← numClassOf ptrSize from_type
  let tc ← numClassOf ptrSize to_type
  match fc, tc with
  | .signedInt, .signedInt | .signedInt, .unsignedInt => do
    let fw ← numWidth ptrSize from_type
    let tw ← numWidth ptrSize to_type
    some (if fw < tw then .sext else if tw < fw then .trunc else .noop)
  | .unsignedInt, .signedInt | .unsignedInt, .unsignedInt => do
    let fw ← numWidth ptrSize from_type
    let tw ← numWidth ptrSize to_type
    some (if fw < tw then .zext else if tw < fw then .trunc else .noop)
  | .signedInt, .floating => some .siToFp
  | .unsignedInt, .floating => some .uiToFp
  | .floating, .floating => some .fpCast
  | .floating, .signedInt => some .fpToSi
  | .floating, .unsignedInt => some .fpToUi

/-- The consistency invariant of the ADT cache: every cached entry belongs to
a defined ADT and is pointer-typed exactly when that ADT is recursive.  It
holds of the initial (empty) cache and is preserved by lowering. -/
def adtCacheConsistent (adts : Adts) (st : NamedTypes) : Prop :=
  ∀ name inst t, alookup st.adts (name, inst) = some t →
    ∃ adt, alookup adts.defs name = some adt ∧
      t.isPointer = adts.adt_is_recursive adt

/-- One lowering step's effect on the ADT cache: lookups are preserved
(entries are only appended) and cache consistency is preserved. -/
def StStep (adts : Adts) (st st' : NamedTypes) : Prop :=
  (∀ k v, alookup st.adts k = some v → alookup st'.adts k = some v) ∧
  (adtCacheConsistent adts st → adtCacheConsistent adts st')

/-- The observables of the two binding phases at one lambda: the byte count
handed to `malloc` by phase A (`gen_closure_without_captures`) and the byte
footprint (offset from the allocation's start, stored size) of the phase-B
store (`closure_capture_env`) through the RC pointer's contents field. -/
def phaseA_B_observables (adts : Adts) (fuel : Nat) (st : NamedTypes)
    (env : Env) (param_ident : String) (body : Expr) (fp : Val) :
    Option (Option Nat × Option (Nat × Nat)) := do
  let (tr, closure, free_vars, st1) ←
    gen_closure_without_captures adts fuel st env param_ident body fp
  let tr2 ← closure_capture_env st1.structDefs env closure free_vars
  some (firstCallArgNat tr, tr2.head?.bind (storeFootprint st1.structDefs))

/-! ## Concrete example inputs (used by witnesses and counterexamples) -/

/-- An example naked/closure pair for the `malloc` extern. -/
def egMallocFunc : GlobFunc :=
  ⟨.globalRef "malloc" (.ptr (.funcT (.ptr (.int 8)) [.int 64])),
   .globalRef "closure_malloc" (.ptr (.struct_ [type_generic_ptr, rc_generic]))⟩

/-- An example naked/closure pair for the `_panic` runtime function. -/
def egPanicFunc : GlobFunc :=
  ⟨.globalRef "_panic" (.ptr (.funcT tyNil [type_generic_ptr])),
   .globalRef "closure__panic" (.ptr (.struct_ [type_generic_ptr, rc_generic]))⟩

/-- An example naked/closure pair for `str_lit_to_string`. -/
def egStrLitFunc : GlobFunc :=
  ⟨.globalRef "str_lit_to_string" (.ptr (.funcT type_generic_ptr [type_generic_ptr])),
   .globalRef "closure_str_lit_to_string" (.ptr (.struct_ [type_generic_ptr, rc_generic]))⟩

/-- An example naked/closure pair for a user `main`. -/
def egUserMainFunc : GlobFunc :=
  ⟨.globalRef "main" (.ptr (.funcT (.struct_ [tyNil, tyRealWorld]) [tyRealWorld])),
   .globalRef "closure_main" (.ptr (.struct_ [type_generic_ptr, rc_generic]))⟩

/-- A program with no ADT definitions. -/
def egAdts : Adts := ⟨[]⟩

/-- An environment with the `malloc` global and one local `x : Int64` in
scope (the enclosing scope a lambda is lowered in). -/
def egEnvCapture : Env :=
  { globs := [("malloc", [([], .func egMallocFunc)])],
    locals := [("x", [[([], Val.undef (.int 64))]])] }

/-- The lambda body `x` at type `Int64` (so the lambda captures `x`). -/
def egBodyX : Expr := .variableE "x" (.const "Int64" none)

/-- The inner function emitted for the example lambda. -/
def egFp : Val :=
  .globalRef "lambda_global_f" (.ptr (.funcT (.int 64) [type_generic_ptr, .int 64]))

/-- The recursive `List` ADT:
`(data (List a) (variants LNil (LCons a (List a))))`. -/
def egListAdt : AdtDef :=
  ⟨"List", ["a"], [⟨"LNil", []⟩, ⟨"LCons", [.var "a", .app "List" [.var "a"]]⟩]⟩

/-- A program defining only `List`. -/
def egAdtsList : Adts := ⟨[("List", egListAdt)]⟩

/-- An environment for the entry-wrapper example: user `main` plus one
declared global variable `g0 : i32`. -/
def egEnvMain : Env :=
  { globs :=
      [("main", [([], .func egUserMainFunc)]),
       ("g0", [([], .var (.globalRef "g0" (.ptr (.int 32))))])],
    locals := [] }

/-- One flattened global-variable binding `g0 = 5 : i32` whose initializer
lowers with no side-effecting instructions. -/
def egVarInit : GlobVarInit := ⟨"g0", [], [], .constInt 32 5⟩

/-- An environment with the runtime functions a `match` lowering needs. -/
def egEnvMatch : Env :=
  { globs :=
      [("_panic", [([], .func egPanicFunc)]),
       ("str_lit_to_string", [([], .func egStrLitFunc)])],
    locals := [] }

/-- An environment where the innermost local scope of `x` does not bind the
empty instantiation although an older, still-pushed scope does, and a global
`x` exists. -/
def egEnvShadow : Env :=
  { globs := [("x", [([], .var (.globalRef "gx" (.ptr (.int 64))))])],
    locals := [("x", [[([], .undef (.int 64))], []])] }

/-- A polymorphic `main` binding whose signature body is exactly the expected
`main` type. -/
def egPolyMain : Binding :=
  .mk "main" "main-pos" ⟨["t0"], expectedMainType⟩ (.nilE "main-pos") []

/-- A well-typed monomorphic `main` binding. -/
def egGoodMain : Binding :=
  .mk "main" "main-pos" ⟨[], expectedMainType⟩ (.nilE "main-pos") []

/-- A monomorphic `let` binding `x = nil`. -/
def egLetBinding : Binding :=
  .mk "x" "x-pos" ⟨[], TYPE_NIL⟩ (.nilE "x-pos") []

end Kvaser

namespace Kvaser

/-! # Theorems -/

/-! ## Association-list lemmas -/

theorem alookup_aremove_self {κ α : Type} [DecidableEq κ]
    (l : List (κ × α)) (k : κ) : alookup (aremove l k) k = none := by
  induction l with
  | nil => rfl
  | cons hd tl ih =>
    obtain ⟨k2, v⟩ := hd
    by_cases h : k2 = k <;> simp [aremove, alookup, h, ih]

theorem alookup_aremove_none {κ α : Type} [DecidableEq κ]
    {l : List (κ × α)} {k k2 : κ} (h : alookup l k = none) :
    alookup (aremove l k2) k = none := by
  induction l with
  | nil => rfl
  | cons hd tl ih =>
    obtain ⟨k3, v⟩ := hd
    rw [alookup] at h
    by_cases h3 : k3 = k
    · simp [h3] at h
    · rw [if_neg h3] at h
      by_cases h32 : k3 = k2 <;> simp [aremove, alookup, h3, h32] <;>
        exact ih h

theorem alookup_append {κ α : Type} [DecidableEq κ]
    (l m : List (κ × α)) (k : κ) :
    alookup (l ++ m) k = (alookup l k).orElse (fun _ => alookup m k) := by
  induction l with
  | nil => simp [alookup, Option.orElse]
  | cons hd tl ih =>
    obtain ⟨k2, v⟩ := hd
    by_cases h : k2 = k <;> simp [alookup, h, ih, Option.orElse]

theorem alookup_append_left {κ α : Type} [DecidableEq κ]
    {l : List (κ × α)} (m : List (κ × α)) {k : κ} {v : α}
    (h : alookup l k = some v) : alookup (l ++ m) k = some v := by
  rw [alookup_append, h]; rfl

/-! ## C9: locals lookup consults only the innermost scope -/

/-- C9: `Env::get_local` consults only the innermost (most recently pushed)
scope map of a name: when `(name, inst)` is absent from the top scope map,
`env.get` falls through to the globals, even when an older, still-pushed
local scope for the same name binds that instantiation. -/
theorem C9_env_get_innermost_scope_only
    (env : Env) (s : String) (ts : Inst)
    (scopes : List (List (Inst × Val))) (top older : List (Inst × Val))
    (hscopes : alookup env.locals s = some scopes)
    (htop : scopes.getLast? = some top)
    (htopMiss : alookup top ts = none)
    (holder : older ∈ scopes.dropLast)
    (holderBinds : (alookup older ts).isSome = true) :
    env.get s ts = (env.get_global s ts).map EnvVar.global := by
  have hl : env.get_local s ts = none := by
    simp [Env.get_local, hscopes, htop, htopMiss]
  simp [Env.get, hl]

/-- Witness for C9 at a concrete environment: the older scope of `x` binds
the empty instantiation, the innermost scope does not, and lookup yields the
global. -/
theorem C9_witness :
    Env.get egEnvShadow "x" [] =
      some (.global (.var (.globalRef "gx" (.ptr (.int 64))))) := by
  have h := C9_env_get_innermost_scope_only egEnvShadow "x" []
    [[([], .undef (.int 64))], []] [] [([], .undef (.int 64))]
    rfl rfl rfl (by simp) rfl
  rw [h]; rfl

/-! ## C10: bound names are absent from free-variable maps -/

theorem alookup_free_vars_remove_idents_none {m : FreeVarInsts}
    {bs : List Binding} {k : String} (h : alookup m k = none) :
    alookup (free_vars_remove_idents m bs) k = none := by
  induction bs generalizing m with
  | nil => simpa [free_vars_remove_idents] using h
  | cons b tl ih =>
    simp only [free_vars_remove_idents]
    exact ih (alookup_aremove_none h)

theorem alookup_free_vars_remove_idents_mem {m : FreeVarInsts}
    {bs : List Binding} {b : Binding} (hb : b ∈ bs) :
    alookup (free_vars_remove_idents m bs) b.ident = none := by
  induction bs generalizing m with
  | nil => cases hb
  | cons hd tl ih =>
    rcases List.mem_cons.mp hb with h | h
    · subst h
      simp only [free_vars_remove_idents]
      exact alookup_free_vars_remove_idents_none (alookup_aremove_self _ _)
    · simp only [free_vars_remove_idents]
      exact ih h

/-- C10: the free-variable map of a lambda never contains the lambda's own
parameter name, and the free-variable map of a `let` contains none of the
names bound by the `let`, regardless of occurrences in the bodies. -/
theorem C10_binders_absent_from_free_vars :
    (∀ (param_ident : String) (body : Expr),
        alookup (free_vars_in_lambda param_ident body) param_ident = none) ∧
    (∀ (bindings : List Binding) (body : Expr) (typ : Ty) (b : Binding),
        b ∈ bindings →
        alookup (free_vars_in_expr (.letE bindings body typ)) b.ident = none) := by
  constructor
  · intro p body
    exact alookup_aremove_self _ _
  · intro bs body typ b hb
    simp only [free_vars_in_expr]
    exact alookup_free_vars_remove_idents_mem hb

/-- Witness for C10 at a concrete `let` and lambda. -/
theorem C10_witness :
    alookup (free_vars_in_expr (.letE [egLetBinding] (.nilE "p") TYPE_NIL)) "x"
        = none ∧
    alookup (free_vars_in_lambda "p" (.variableE "p" TYPE_NIL)) "p" = none := by
  constructor
  · exact C10_binders_absent_from_free_vars.2 [egLetBinding] (.nilE "p")
      TYPE_NIL egLetBinding (by simp)
  · exact C10_binders_absent_from_free_vars.1 "p" _

end Kvaser

namespace Kvaser

/-! ## C3: the `main` verification of `gen_executable` -/

/-- C3 counterexample: a polymorphic `main` whose signature body equals the
expected type is accepted by the check (the source only compares
`main.sig.body` with the expected type and consults monomorphism merely to
choose the error report), contradicting the claim that such a `main` is
rejected. -/
theorem C3_counterexample :
    check_main [egPolyMain] = .ok ∧ egPolyMain.sig.is_monomorphic = false :=
  ⟨rfl, rfl⟩

/-- C3 (amended): program emission verifies that a binding named `main`
exists and that its signature body is `(RealWorld -> (Cons Nil RealWorld))`;
a missing `main` or a wrong body type is reported at the binding's position
(with the polymorphic case reported through the printed-error-and-help path);
monomorphism is *not* checked on its own, so a polymorphic `main` with the
expected signature body is accepted. -/
theorem C3_main_check_characterization (globals : List Binding) :
    (check_main globals = .ok ↔
      ∃ b, globals.find? (fun b2 => b2.ident == "main") = some b ∧
        b.sig.body = expectedMainType) ∧
    (globals.find? (fun b2 => b2.ident == "main") = none →
      check_main globals = .errNotFound) ∧
    (∀ b, globals.find? (fun b2 => b2.ident == "main") = some b →
      b.sig.body ≠ expectedMainType →
      check_main globals =
        if b.sig.is_monomorphic then .errWrongTypeMono b.pos
        else .errWrongTypePoly b.pos) := by
  have keyNone : globals.find? (fun b2 => b2.ident == "main") = none →
      check_main globals = .errNotFound := by
    intro hf; unfold check_main; rw [hf]
  have key : ∀ b, globals.find? (fun b2 => b2.ident == "main") = some b →
      check_main globals =
        if b.sig.body ≠ expectedMainType then
          if b.sig.is_monomorphic then .errWrongTypeMono b.pos
          else .errWrongTypePoly b.pos
        else .ok := by
    intro b hf; unfold check_main; rw [hf]
  refine ⟨?_, keyNone, ?_⟩
  · constructor
    · intro h
      rcases hf : globals.find? (fun b2 => b2.ident == "main") with _ | b
      · rw [keyNone hf] at h; cases h
      · by_cases hb : b.sig.body = expectedMainType
        · exact ⟨b, hf, hb⟩
        · rw [key b hf] at h
          by_cases hm : b.sig.is_monomorphic = true <;> simp [hm, hb] at h
    · rintro ⟨b, hf, hb⟩
      rw [key b hf]
      simp [hb]
  · intro b hf hb
    rw [key b hf]
    simp [hb]

/-- Witness for C3 (amended) at a concrete well-formed program. -/
theorem C3_witness : check_main [egGoodMain] = .ok :=
  (C3_main_check_characterization [egGoodMain]).1.mpr ⟨egGoodMain, rfl, rfl⟩

/-! ## C4: the direct-call predicate of `gen_app` -/

/-- C4: `gen_app` emits a direct one-argument call (no captures parameter)
iff the operator expression is a variable whose `(name, instantiation)`
resolves in the environment to a global function (locals shadow globals in
`Env::get`) and the name is not one of the arithmetic primitives
`add`/`sub`/`mul`/`div` nor the relational primitives `eq`/`lt`; in every
other case the operator is lowered to a closure value and called as
`fp(capturesContentsPtr, arg)`. -/
theorem C4_direct_call_iff (env : Env) (funcExpr : Expr) (arg funcVal : Val) :
    (∃ callee, (gen_app env funcExpr arg funcVal).1 = [.callI callee [arg]]) ↔
    (∃ name typ g,
      funcExpr.as_var = some (name, typ) ∧
      env.get name (typ.get_inst_args.getD []) = some (.global (.func g)) ∧
      is_arithm_binop name = false ∧ is_relational_binop name = false) := by
  rcases hv : funcExpr.as_var with _ | ⟨name, typ⟩
  · simp [gen_app, hv, build_app, build_gep_rc_contents_generic,
      build_gep_rc_contents]
  · rcases hg : env.get name (typ.get_inst_args.getD []) with _ | g
    · simp [gen_app, hv, hg, build_app, build_gep_rc_contents_generic,
        build_gep_rc_contents]
    · rcases g with g | v
      · rcases g with g | v
        · by_cases ha : is_arithm_binop name
          · simp [gen_app, hv, hg, ha, build_app, build_gep_rc_contents_generic,
              build_gep_rc_contents]
          · by_cases hr : is_relational_binop name
            · simp [gen_app, hv, hg, ha, hr, build_app,
                build_gep_rc_contents_generic, build_gep_rc_contents]
            · simp [gen_app, hv, hg, ha, hr]
              exact ⟨name, typ, ⟨rfl, rfl⟩, ⟨g, hg⟩, by simpa using ha,
                by simpa using hr⟩
        · simp [gen_app, hv, hg, build_app, build_gep_rc_contents_generic,
            build_gep_rc_contents]
      · simp [gen_app, hv, hg, build_app, build_gep_rc_contents_generic,
          build_gep_rc_contents]

end Kvaser

namespace Kvaser

/-! ## C7: cast selection and the invalid-cast error -/

theorem is_int_eq_isSome_int_size (ptrSize : Nat) (t : Ty) :
    t.is_int = (t.int_size ptrSize).isSome := by
  cases t with
  | const n i =>
    simp only [Ty.is_int, Ty.int_size]
    by_cases h1 : n = "Int8" <;> by_cases h2 : n = "Int16" <;>
      by_cases h3 : n = "Int32" <;> by_cases h4 : n = "Int64" <;>
        by_cases h5 : n = "IntPtr" <;> simp [h1, h2, h3, h4, h5]
  | app c a => rfl
  | var n => rfl

theorem is_uint_eq_isSome_uint_size (ptrSize : Nat) (t : Ty) :
    t.is_uint = (t.uint_size ptrSize).isSome := by
  cases t with
  | const n i =>
    simp only [Ty.is_uint, Ty.uint_size]
    by_cases h1 : n = "UInt8" <;> by_cases h2 : n = "UInt16" <;>
      by_cases h3 : n = "UInt32" <;> by_cases h4 : n = "UInt64" <;>
        by_cases h5 : n = "UIntPtr" <;> simp [h1, h2, h3, h4, h5]
  | app c a => rfl
  | var n => rfl

theorem int_size_eq_none_of_is_float (ptrSize : Nat) {t : Ty}
    (h : t.is_float = true) : t.int_size ptrSize = none := by
  cases t with
  | const n i =>
    simp only [Ty.is_float, Bool.or_eq_true, beq_iff_eq] at h
    rcases h with h | h <;> subst h <;> rfl
  | app c a => rfl
  | var n => rfl

theorem uint_size_eq_none_of_is_float (ptrSize : Nat) {t : Ty}
    (h : t.is_float = true) : t.uint_size ptrSize = none := by
  cases t with
  | const n i =>
    simp only [Ty.is_float, Bool.or_eq_true, beq_iff_eq] at h
    rcases h with h | h <;> subst h <;> rfl
  | app c a => rfl
  | var n => rfl

/-- C7: the conversion emitted for a cast is chosen by classifying source and
target as signed int, unsigned int, or float — the source's selection
coincides with the spec-worded classification table `cast_select_spec` — and
whenever no legal conversion exists for the pair, `gen_cast` fails with a
user-visible error carrying the cast expression's source position (never an
internal-compiler-error outcome). -/
theorem C7_cast_classification (ptrSize : Nat) (from_type to_type : Ty)
    (pos : SrcPos) :
    gen_cast_sel ptrSize from_type to_type =
      cast_select_spec ptrSize from_type to_type ∧
    ((∃ op, gen_cast ptrSize from_type to_type pos = .ok op) ∨
      gen_cast ptrSize from_type to_type pos =
        .error (.user pos "Invalid cast")) := by
  constructor
  · unfold gen_cast_sel cast_select_spec numClassOf numWidth
    rcases hfi : from_type.int_size ptrSize with _ | fs <;>
      rcases hfu : from_type.uint_size ptrSize with _ | fu <;>
        rcases hti : to_type.int_size ptrSize with _ | ts2 <;>
          rcases htu : to_type.uint_size ptrSize with _ | tu <;>
            cases hff : from_type.is_float <;>
              cases htf : to_type.is_float <;>
                try simp [hfi, hfu, hti, htu, hff, htf, Option.orElse,
                  is_int_eq_isSome_int_size ptrSize,
                  is_uint_eq_isSome_uint_size ptrSize]
    all_goals exfalso
    all_goals
      try { rw [uint_size_eq_none_of_is_float ptrSize htf] at htu
            exact Option.noConfusion htu }
    all_goals
      rw [int_size_eq_none_of_is_float ptrSize htf] at hti
      exact Option.noConfusion hti
  · unfold gen_cast
    cases gen_cast_sel ptrSize from_type to_type with
    | none => right; rfl
    | some op => left; exact ⟨op, rfl⟩

end Kvaser

namespace Kvaser

/-! ## C5: the synthesized default block of a match -/

theorem strAppendAssoc (a b c : String) : (a ++ b) ++ c = a ++ (b ++ c) := by
  rcases a with ⟨la⟩; rcases b with ⟨lb⟩; rcases c with ⟨lc⟩
  show String.mk ((la ++ lb) ++ lc) = String.mk (la ++ (lb ++ lc))
  rw [List.append_assoc]

theorem nonExhaust_msg_structure (pos : SrcPos) :
    RuntErr.toMsgString (.nonExhaustPatts pos) =
      pos ++ (": [" ++ ("RUNTIME-0" ++
        ("] " ++ "Non-exhaustive patterns in match. Fell all the way through!"))) := by
  simp only [RuntErr.toMsgString, SrcPos.error_string, RuntErr.code,
    ErrCode.display]
  congr 1

theorem nonExhaust_msg_contains_code (pos : SrcPos) :
    StrContains (RuntErr.toMsgString (.nonExhaustPatts pos)) "RUNTIME-0" := by
  rw [nonExhaust_msg_structure]
  exact ⟨pos ++ ": [",
    "] " ++ "Non-exhaustive patterns in match. Fell all the way through!",
    by rw [strAppendAssoc]⟩

theorem nonExhaust_msg_contains_pos (pos : SrcPos) :
    StrContains (RuntErr.toMsgString (.nonExhaustPatts pos)) pos := by
  rw [nonExhaust_msg_structure]
  exact ⟨"",
    ": [" ++ ("RUNTIME-0" ++
      ("] " ++ "Non-exhaustive patterns in match. Fell all the way through!")),
    rfl⟩

/-- C5: for every match expression, the synthesized default block builds a
`_panic` call whose message carries error code `RUNTIME-0` and the match's
source position, then branches to the final join block, contributing an
`undef` value (of the match's lowered type) to the result phi. -/
theorem C5_match_default_block
    (adts : Adts) (fuel : Nat) (st : NamedTypes) (env : Env)
    (caseResults : List (Val × String)) (pos : SrcPos) (mTyp : Ty)
    (em : MatchEmission) (st1 : NamedTypes)
    (h : gen_match_skeleton adts fuel st env caseResults pos mTyp
          = some (em, st1)) :
    ∃ panicTr rt st2,
      build_panic st.structDefs env
          (RuntErr.toMsgString (.nonExhaustPatts pos)) = some panicTr ∧
      gen_type adts fuel st mTyp = some (rt, st2) ∧
      em.defaultInstrs = panicTr ++ [.br "case_final"] ∧
      em.phiNodes = caseResults ++ [(Val.undef rt, "case_default")] ∧
      (∃ rt2 st3, gen_type adts fuel st2 mTyp = some (rt2, st3) ∧
        em.result = .phi rt2 em.phiNodes) ∧
      StrContains (RuntErr.toMsgString (.nonExhaustPatts pos)) "RUNTIME-0" ∧
      StrContains (RuntErr.toMsgString (.nonExhaustPatts pos)) pos := by
  unfold gen_match_skeleton at h
  rcases hemp : caseResults.isEmpty with _ | _
  · rw [hemp] at h
    rw [if_neg Bool.false_ne_true] at h
    rcases hbp : build_panic st.structDefs env
        (RuntErr.toMsgString (.nonExhaustPatts pos)) with _ | panicTr
    · rw [hbp] at h
      simp only [Option.bind_eq_bind, Option.none_bind] at h
      exact Option.noConfusion h
    · rw [hbp] at h
      simp only [Option.bind_eq_bind, Option.some_bind] at h
      rcases hgt : gen_type adts fuel st mTyp with _ | ⟨rt, st2⟩
      · rw [hgt] at h
        simp only [Option.none_bind] at h
        exact Option.noConfusion h
      · rw [hgt] at h
        simp only [Option.some_bind] at h
        rcases hgt2 : gen_type adts fuel st2 mTyp with _ | ⟨rt2, st3⟩
        · rw [hgt2] at h
          simp only [Option.none_bind] at h
          exact Option.noConfusion h
        · rw [hgt2] at h
          simp only [Option.some_bind] at h
          have h2 := Option.some.inj h
          obtain ⟨hem, hst⟩ := Prod.ext_iff.mp h2
          subst hem
          subst hst
          exact ⟨panicTr, rt, st2, rfl, rfl, rfl, rfl, ⟨rt2, st3, hgt2, rfl⟩,
            nonExhaust_msg_contains_code pos, nonExhaust_msg_contains_pos pos⟩
  · rw [hemp] at h
    rw [if_pos rfl] at h
    exact Option.noConfusion h

/-- Witness for C5 at a concrete single-case match lowering. -/
theorem C5_witness :
    StrContains (RuntErr.toMsgString (.nonExhaustPatts "eg-pos")) "RUNTIME-0" ∧
    StrContains (RuntErr.toMsgString (.nonExhaustPatts "eg-pos")) "eg-pos" := by
  have hs : (gen_match_skeleton egAdts 4 NamedTypes.initial egEnvMatch
      [(Val.constInt 32 1, "case_0")] "eg-pos" (.const "Int32" none)).isSome
        = true := rfl
  obtain ⟨⟨em, st1⟩, hres⟩ := Option.isSome_iff_exists.mp hs
  obtain ⟨_, _, _, _, _, _, _, _, hcode, hpos⟩ :=
    C5_match_default_block egAdts 4 NamedTypes.initial egEnvMatch
      [(Val.constInt 32 1, "case_0")] "eg-pos" (.const "Int32" none) em st1 hres
  exact ⟨hcode, hpos⟩

end Kvaser

namespace Kvaser

/-! ## C6: the synthesized entry-point wrapper -/

/-- C6: the wrapper `main`'s entry block first runs the initializer of every
user global variable in binding order (each initializer's emission followed
by the store through its declared global, cons by cons), then calls the user
`main` exactly once with a fresh undef `RealWorld` token, and finally
returns the constant `0 : i32`. -/
theorem C6_entry_wrapper
    (env : Env) (vbs : List GlobVarInit) (g : GlobFunc) (tr : List Instr)
    (b : GlobVarInit) (rest : List GlobVarInit) (v : Val)
    (hmain : env.get "main" [] = some (.global (.func g)))
    (h : gen_executable_main_entry env vbs = some tr)
    (hv : env.get_global b.name b.inst = some (.var v)) :
    ∃ inits, gen_glob_var_inits env vbs = some inits ∧
      tr = inits ++ [.callI g.func [.undef tyRealWorld],
                     .ret (.constInt 32 0)] ∧
      gen_glob_var_inits env (b :: rest) =
        (gen_glob_var_inits env rest).map
          (fun more => (b.initTrace ++ [.store b.initVal v]) ++ more) := by
  have hstep : gen_glob_var_inits env (b :: rest) =
      (gen_glob_var_inits env rest).map
        (fun more => (b.initTrace ++ [.store b.initVal v]) ++ more) := by
    rw [gen_glob_var_inits, hv]
    rcases hrest : gen_glob_var_inits env rest with _ | more <;>
      simp [hrest, Option.bind_eq_bind, Option.some_bind, Option.none_bind]
  unfold gen_executable_main_entry at h
  rcases hin : gen_glob_var_inits env vbs with _ | inits
  · rw [hin] at h
    simp only [Option.bind_eq_bind, Option.none_bind] at h
    exact Option.noConfusion h
  · rw [hin] at h
    simp only [Option.bind_eq_bind, Option.some_bind] at h
    rw [show build_call_named_mono env "main" (.undef tyRealWorld)
          = some ([.callI g.func [.undef tyRealWorld]],
                  .call g.func [.undef tyRealWorld]) by
        unfold build_call_named_mono build_call_named
        rw [hmain]] at h
    simp only [Option.some_bind] at h
    have htr := Option.some.inj h
    refine ⟨inits, rfl, ?_, hstep⟩
    rw [← htr]
    simp
  
end Kvaser

namespace Kvaser

/-- Witness for C6 at a concrete environment with one global variable. -/
theorem C6_witness :
    ∃ inits, gen_glob_var_inits egEnvMain [egVarInit] = some inits ∧
      [Instr.store (.constInt 32 5) (.globalRef "g0" (.ptr (.int 32))),
       Instr.callI egUserMainFunc.func [.undef tyRealWorld],
       Instr.ret (.constInt 32 0)]
        = inits ++ [.callI egUserMainFunc.func [.undef tyRealWorld],
                    .ret (.constInt 32 0)] ∧
      gen_glob_var_inits egEnvMain (egVarInit :: []) =
        (gen_glob_var_inits egEnvMain []).map
          (fun more =>
            (egVarInit.initTrace ++
              [.store egVarInit.initVal
                (.globalRef "g0" (.ptr (.int 32)))]) ++ more) :=
  C6_entry_wrapper egEnvMain [egVarInit] egUserMainFunc
    [.store (.constInt 32 5) (.globalRef "g0" (.ptr (.int 32))),
     .callI egUserMainFunc.func [.undef tyRealWorld],
     .ret (.constInt 32 0)]
    egVarInit [] (.globalRef "g0" (.ptr (.int 32))) rfl rfl rfl

end Kvaser

namespace Kvaser

/-! ## C2: reference-count initialization -/

/-- C2 counterexample: at a concrete lambda binding that captures
`x : Int64`, phase A (`gen_closure_without_captures`) emits no store at all —
its trace is the bare `malloc` call — although the closure's captures field
is an RC-typed value (the generic-RC bitcast of that very allocation), so
the `u64` count field of this RC pointer is *not* initialized to 1 at
allocation time, refuting the claim for the phase-A allocation path. -/
theorem C2_counterexample :
    ((gen_closure_without_captures egAdts 8 NamedTypes.initial egEnvCapture
        "y" egBodyX egFp).map
      (fun r => (r.1.filter Instr.isStore, (r.2.1).fieldAt 1)))
      = some ([], some (build_as_generic_rc
          (.call egMallocFunc.func [.constInt 64 8]))) := by
  have hfv : free_vars_in_lambda_filter_globals egEnvCapture "y" egBodyX
      = [("x", [([], Ty.const "Int64" none)])] := by
    simp [free_vars_in_lambda_filter_globals, free_vars_in_lambda,
      free_vars_in_expr, egBodyX, Ty.get_inst_args, Ty.canonicalize, fvRemove,
      aremove, egEnvCapture, alookup]
  unfold gen_closure_without_captures
  rw [hfv]
  rfl

/-- C2 (amended): every RC pointer allocated through `build_rc` (the path
taken by `gen_lambda` captures and by recursive-ADT construction in
`gen_new`) stores, through the returned pointer, a struct whose `u64` count
field is the constant 1; the phase-A capture records of `gen_bindings` are
instead allocated by a raw `malloc` with wholly undefined contents, count
field included. -/
theorem C2_build_rc_count_one (defs : StructDefs) (env : Env) (v : Val)
    (tr : List Instr) (p : Val)
    (h : build_rc defs env v = some (tr, p)) :
    ∃ tr0 s, tr = tr0 ++ [.store s p] ∧
      s.fieldAt 0 = some (.constInt 64 1) := by
  unfold build_rc build_struct at h
  simp only [List.mapM_cons, List.mapM_nil] at h
  rw [show Val.typeOf defs (.constInt 64 1) = some (.int 64) from rfl] at h
  rcases htv : Val.typeOf defs v with _ | t
  · rw [htv] at h
    simp only [Option.bind_eq_bind, Option.none_bind, Option.some_bind,
      Option.pure_def] at h
    exact Option.noConfusion h
  · rw [htv] at h
    simp only [Option.bind_eq_bind, Option.none_bind, Option.some_bind,
      Option.pure_def] at h
    unfold build_val_on_heap at h
    rw [show Val.typeOf defs
          (build_struct_of_type [Val.constInt 64 1, v] (.struct_ [.int 64, t]))
        = some (.struct_ [.int 64, t]) from rfl] at h
    simp only [Option.bind_eq_bind, Option.some_bind] at h
    rcases hm : build_malloc_of_type defs env (.struct_ [.int 64, t])
        with _ | ⟨tr0, p0⟩
    · rw [hm] at h
      simp only [Option.none_bind] at h
      exact Option.noConfusion h
    · rw [hm] at h
      simp only [Option.some_bind] at h
      have h2 := Option.some.inj h
      obtain ⟨htr, hp⟩ := Prod.ext_iff.mp h2
      subst htr
      subst hp
      exact ⟨tr0, _, rfl, rfl⟩

/-- Witness for C2 (amended) at a concrete `build_rc` of an `i32` payload. -/
theorem C2_witness :
    ∃ tr p tr0 s,
      build_rc baseStructDefs egEnvCapture (Val.constInt 32 7)
        = some (tr, p) ∧
      tr = tr0 ++ [.store s p] ∧ s.fieldAt 0 = some (.constInt 64 1) := by
  have hs : (build_rc baseStructDefs egEnvCapture
      (Val.constInt 32 7)).isSome = true := rfl
  obtain ⟨⟨tr, p⟩, hres⟩ := Option.isSome_iff_exists.mp hs
  obtain ⟨tr0, s, h1, h2⟩ :=
    C2_build_rc_count_one baseStructDefs egEnvCapture _ tr p hres
  exact ⟨tr, p, tr0, s, hres, h1, h2⟩

end Kvaser

namespace Kvaser

/-! ## C1: the phase-A capture allocation is undersized -/

/-- C1 (code bug, evaluated at the failing input): for the lambda binding
`(\y -> x)` capturing one `Int64`, phase A's `gen_closure_without_captures`
passes `size_of(captures_type) = 8` bytes to `malloc` — the size of the bare
captures struct, without the `u64` RC header — while phase B's
`closure_capture_env` stores the 8-byte captures struct at byte offset 8
(field 1 of `{u64 count, captures}`) of that very allocation, i.e. over
bytes `[8, 16)` of an 8-byte allocation.  The allocation is therefore not
large enough for the phase-B store, refuting the claimed bound
`offset + size ≤ allocation`. -/
theorem C1_undersized_capture_allocation :
    phaseA_B_observables egAdts 8 NamedTypes.initial egEnvCapture "y"
        egBodyX egFp
      = some (some 8, some (8, 8)) ∧ ¬ ((8 : Nat) + 8 ≤ 8) := by
  constructor
  · have hfv : free_vars_in_lambda_filter_globals egEnvCapture "y" egBodyX
        = [("x", [([], Ty.const "Int64" none)])] := by
      simp [free_vars_in_lambda_filter_globals, free_vars_in_lambda,
        free_vars_in_expr, egBodyX, Ty.get_inst_args, Ty.canonicalize,
        fvRemove, aremove, egEnvCapture, alookup]
    unfold phaseA_B_observables gen_closure_without_captures
    rw [hfv]
    rfl
  · decide

end Kvaser

namespace Kvaser

/-! ## C8: recursive ADT representation -/

theorem StStep_refl (adts : Adts) (st : NamedTypes) : StStep adts st st :=
  ⟨fun _ _ h => h, id⟩

theorem StStep_trans {adts : Adts} {a b c : NamedTypes}
    (h1 : StStep adts a b) (h2 : StStep adts b c) : StStep adts a c :=
  ⟨fun k v h => h2.1 k v (h1.1 k v h), fun hc => h2.2 (h1.2 hc)⟩

theorem StStep_of_adts_eq (adts : Adts) (st st' : NamedTypes)
    (h : st'.adts = st.adts) : StStep adts st st' :=
  ⟨fun k v hv => by rw [h]; exact hv,
   fun hc name inst t hv => by rw [h] at hv; exact hc name inst t hv⟩

theorem adtCacheConsistent_append (adts : Adts) (st : NamedTypes)
    (name : String) (inst : List Ty) (t : LLType) (adt : AdtDef)
    (hdef : alookup adts.defs name = some adt)
    (hiff : t.isPointer = adts.adt_is_recursive adt)
    (hc : adtCacheConsistent adts st) :
    ∀ name2 inst2 t2,
      alookup (st.adts ++ [((name, inst), t)]) (name2, inst2) = some t2 →
      ∃ adt2, alookup adts.defs name2 = some adt2 ∧
        t2.isPointer = adts.adt_is_recursive adt2 := by
  intro name2 inst2 t2 h
  rw [alookup_append] at h
  rcases hl : alookup st.adts (name2, inst2) with _ | v2
  · rw [hl] at h
    rw [Option.none_orElse'] at h
    rw [alookup] at h
    by_cases he : ((name, inst) : String × List Ty) = (name2, inst2)
    · rw [if_pos he] at h
      have ht2 := Option.some.inj h
      obtain ⟨hn, _⟩ := Prod.ext_iff.mp he
      subst hn
      subst ht2
      exact ⟨adt, hdef, hiff⟩
    · rw [if_neg he] at h
      exact Option.noConfusion h
  · rw [hl] at h
    rw [Option.some_orElse'] at h
    have := Option.some.inj h
    subst this
    exact hc name2 inst2 v2 hl

theorem StStep_of_append (adts : Adts) (st st' : NamedTypes)
    (name : String) (inst : List Ty) (t : LLType) (adt : AdtDef)
    (hst : st'.adts = st.adts ++ [((name, inst), t)])
    (hdef : alookup adts.defs name = some adt)
    (hiff : t.isPointer = adts.adt_is_recursive adt) :
    StStep adts st st' := by
  constructor
  · intro k v h
    rw [hst]
    exact alookup_append_left _ h
  · intro hc name2 inst2 t2 h
    rw [hst] at h
    exact adtCacheConsistent_append adts st name inst t adt hdef hiff hc
      name2 inst2 t2 h

theorem gen_adt_shape (adts : Adts) (fuel : Nat) (st : NamedTypes)
    (adt : AdtDef) (inst : List Ty) (t : LLType) (st' : NamedTypes)
    (h : gen_adt adts fuel st adt inst = some (t, st')) :
    ∃ sname, t = .namedStruct sname := by
  cases fuel with
  | zero => exact Option.noConfusion h
  | succ fuel =>
    rw [gen_adt] at h
    rcases hgl : gen_largest_adt_variant_type adts fuel st adt inst
        with _ | ⟨largest, st1⟩
    · rw [hgl] at h
      simp only [Option.bind_eq_bind, Option.none_bind] at h
      exact Option.noConfusion h
    · rw [hgl] at h
      simp only [Option.bind_eq_bind, Option.some_bind] at h
      have := Option.some.inj h
      obtain ⟨ht, _⟩ := Prod.ext_iff.mp this
      exact ⟨_, ht.symm⟩

theorem alookup_seedRecursiveAdt (st : NamedTypes) (name : String)
    (inst : List Ty) (innerName : String)
    (hmiss : alookup st.adts (name, inst) = none) :
    alookup (seedRecursiveAdt st name inst innerName).adts (name, inst)
      = some (type_rc (.namedStruct innerName)) := by
  show alookup (st.adts ++ [((name, inst), type_rc (.namedStruct innerName))])
      (name, inst) = _
  rw [alookup_append, hmiss, Option.none_orElse', alookup, if_pos rfl]

end Kvaser

namespace Kvaser

/-- Unfolding equation for `gen_type` at a type constant. -/
theorem gen_type_const_eq (adts : Adts) (fuel : Nat) (st : NamedTypes)
    (name : String) (io : Option (List Ty)) :
    gen_type adts (fuel + 1) st (.const name io) =
      (if name = "Int8" then some (.int 8, st)
       else if name = "Int16" then some (.int 16, st)
       else if name = "Int32" then some (.int 32, st)
       else if name = "Int64" then some (.int 64, st)
       else if name = "IntPtr" then some (.int 64, st)
       else if name = "UIntPtr" then some (.int 64, st)
       else if name = "UInt8" then some (.int 8, st)
       else if name = "UInt16" then some (.int 16, st)
       else if name = "UInt32" then some (.int 32, st)
       else if name = "UInt64" then some (.int 64, st)
       else if name = "Bool" then some (.int 1, st)
       else if name = "Float32" then some (.float32, st)
       else if name = "Float64" then some (.float64, st)
       else if name = "Nil" then some (tyNil, st)
       else if name = "RealWorld" then some (tyRealWorld, st)
       else if (alookup adts.defs name).isSome then
         get_or_gen_adt_by_name_and_inst adts fuel st name []
       else none) := rfl

/-- Unfolding equation for `gen_type` at a type application. -/
theorem gen_type_app_eq (adts : Adts) (fuel : Nat) (st : NamedTypes)
    (ctor : String) (args : List Ty) :
    gen_type adts (fuel + 1) st (.app ctor args) =
      (if ctor = "->" then
        match args with
        | [a, r] => do
          let (rt, st1) ← gen_type adts fuel st r
          let (at_, st2) ← gen_type adts fuel st1 a
          some (.struct_ [.ptr (.funcT rt [type_generic_ptr, at_]),
                          rc_generic], st2)
        | _ => none
      else if ctor = "Cons" then
        match args with
        | [a, b] => do
          let (la, st1) ← gen_type adts fuel st a
          let (lb, st2) ← gen_type adts fuel st1 b
          some (.struct_ [la, lb], st2)
        | _ => none
      else if ctor = "Ptr" then
        match args with
        | [a] => do
          let (la, st1) ← gen_type adts fuel st a
          some (.ptr la, st1)
        | _ => none
      else if (alookup adts.defs ctor).isSome then
        get_or_gen_adt_by_name_and_inst adts fuel st ctor args
      else none) := rfl

set_option maxHeartbeats 1000000 in
/-- Every function of the `gen_type` family only appends to the ADT cache
(lookups are preserved) and preserves the cache-consistency invariant. -/
theorem genTypeFamily_StStep (adts : Adts) : ∀ fuel : Nat,
    (∀ st t r st', gen_type adts fuel st t = some (r, st') →
      StStep adts st st') ∧
    (∀ st name inst r st',
      get_or_gen_adt_by_name_and_inst adts fuel st name inst = some (r, st') →
      StStep adts st st') ∧
    (∀ st adt inst r st', gen_adt adts fuel st adt inst = some (r, st') →
      StStep adts st st') ∧
    (∀ st adt inst r st',
      gen_largest_adt_variant_type adts fuel st adt inst = some (r, st') →
      StStep adts st st') ∧
    (∀ st adt vs inst r st',
      gen_variant_types adts fuel st adt vs inst = some (r, st') →
      StStep adts st st') ∧
    (∀ st adt inst innerName st',
      populate_recursive_adt adts fuel st adt inst innerName = some st' →
      StStep adts st st') := by
  intro fuel
  induction fuel with
  | zero =>
    refine ⟨?_, ?_, ?_, ?_, ?_, ?_⟩
    all_goals intros
    all_goals rename_i h
    all_goals exact Option.noConfusion h
  | succ fuel ih =>
    obtain ⟨ihGT, ihGG, ihGA, ihGL, ihGV, ihPR⟩ := ih
    have hGT : ∀ st t r st', gen_type adts (fuel + 1) st t = some (r, st') →
        StStep adts st st' := by
      intro st t r st' h
      cases t with
      | var n => exact Option.noConfusion h
      | const name io =>
        rw [gen_type_const_eq] at h
        by_cases e1 : name = "Int8"
        · rw [if_pos e1] at h
          cases h
          exact StStep_refl adts st
        · rw [if_neg e1] at h
          by_cases e2 : name = "Int16"
          · rw [if_pos e2] at h
            cases h
            exact StStep_refl adts st
          · rw [if_neg e2] at h
            by_cases e3 : name = "Int32"
            · rw [if_pos e3] at h
              cases h
              exact StStep_refl adts st
            · rw [if_neg e3] at h
              by_cases e4 : name = "Int64"
              · rw [if_pos e4] at h
                cases h
                exact StStep_refl adts st
              · rw [if_neg e4] at h
                by_cases e5 : name = "IntPtr"
                · rw [if_pos e5] at h
                  cases h
                  exact StStep_refl adts st
                · rw [if_neg e5] at h
                  by_cases e6 : name = "UIntPtr"
                  · rw [if_pos e6] at h
                    cases h
                    exact StStep_refl adts st
                  · rw [if_neg e6] at h
                    by_cases e7 : name = "UInt8"
                    · rw [if_pos e7] at h
                      cases h
                      exact StStep_refl adts st
                    · rw [if_neg e7] at h
                      by_cases e8 : name = "UInt16"
                      · rw [if_pos e8] at h
                        cases h
                        exact StStep_refl adts st
                      · rw [if_neg e8] at h
                        by_cases e9 : name = "UInt32"
                        · rw [if_pos e9] at h
                          cases h
                          exact StStep_refl adts st
                        · rw [if_neg e9] at h
                          by_cases e10 : name = "UInt64"
                          · rw [if_pos e10] at h
                            cases h
                            exact StStep_refl adts st
                          · rw [if_neg e10] at h
                            by_cases e11 : name = "Bool"
                            · rw [if_pos e11] at h
                              cases h
                              exact StStep_refl adts st
                            · rw [if_neg e11] at h
                              by_cases e12 : name = "Float32"
                              · rw [if_pos e12] at h
                                cases h
                                exact StStep_refl adts st
                              · rw [if_neg e12] at h
                                by_cases e13 : name = "Float64"
                                · rw [if_pos e13] at h
                                  cases h
                                  exact StStep_refl adts st
                                · rw [if_neg e13] at h
                                  by_cases e14 : name = "Nil"
                                  · rw [if_pos e14] at h
                                    cases h
                                    exact StStep_refl adts st
                                  · rw [if_neg e14] at h
                                    by_cases e15 : name = "RealWorld"
                                    · rw [if_pos e15] at h
                                      cases h
                                      exact StStep_refl adts st
                                    · rw [if_neg e15] at h
                                      by_cases e16 : (alookup adts.defs name).isSome = true
                                      · rw [if_pos e16] at h
                                        exact ihGG _ _ _ _ _ h
                                      · rw [if_neg e16] at h
                                        exact Option.noConfusion h
      | app ctor args =>
        rw [gen_type_app_eq] at h
        by_cases a1 : ctor = "->"
        · rw [if_pos a1] at h
          split at h
          any_goals exact Option.noConfusion h
          rename_i a r2
          rcases hg1 : gen_type adts fuel st r2 with _ | ⟨rt, st1⟩
          · rw [hg1] at h
            simp only [Option.bind_eq_bind, Option.none_bind] at h
            exact Option.noConfusion h
          · rw [hg1] at h
            simp only [Option.bind_eq_bind, Option.some_bind] at h
            rcases hg2 : gen_type adts fuel st1 a with _ | ⟨at2, st2⟩
            · rw [hg2] at h
              simp only [Option.none_bind] at h
              exact Option.noConfusion h
            · rw [hg2] at h
              simp only [Option.some_bind] at h
              have := Option.some.inj h
              obtain ⟨-, hst⟩ := Prod.ext_iff.mp this
              subst hst
              exact StStep_trans (ihGT _ _ _ _ hg1) (ihGT _ _ _ _ hg2)
        · rw [if_neg a1] at h
          by_cases a2 : ctor = "Cons"
          · rw [if_pos a2] at h
            split at h
            any_goals exact Option.noConfusion h
            rename_i a b
            rcases hg1 : gen_type adts fuel st a with _ | ⟨la, st1⟩
            · rw [hg1] at h
              simp only [Option.bind_eq_bind, Option.none_bind] at h
              exact Option.noConfusion h
            · rw [hg1] at h
              simp only [Option.bind_eq_bind, Option.some_bind] at h
              rcases hg2 : gen_type adts fuel st1 b with _ | ⟨lb, st2⟩
              · rw [hg2] at h
                simp only [Option.none_bind] at h
                exact Option.noConfusion h
              · rw [hg2] at h
                simp only [Option.some_bind] at h
                have := Option.some.inj h
                obtain ⟨-, hst⟩ := Prod.ext_iff.mp this
                subst hst
                exact StStep_trans (ihGT _ _ _ _ hg1) (ihGT _ _ _ _ hg2)
          · rw [if_neg a2] at h
            by_cases a3 : ctor = "Ptr"
            · rw [if_pos a3] at h
              split at h
              any_goals exact Option.noConfusion h
              rename_i a
              rcases hg1 : gen_type adts fuel st a with _ | ⟨la, st1⟩
              · rw [hg1] at h
                simp only [Option.bind_eq_bind, Option.none_bind] at h
                exact Option.noConfusion h
              · rw [hg1] at h
                simp only [Option.bind_eq_bind, Option.some_bind] at h
                have := Option.some.inj h
                obtain ⟨-, hst⟩ := Prod.ext_iff.mp this
                subst hst
                exact ihGT _ _ _ _ hg1
            · rw [if_neg a3] at h
              by_cases a4 : (alookup adts.defs ctor).isSome = true
              · rw [if_pos a4] at h
                exact ihGG _ _ _ _ _ h
              · rw [if_neg a4] at h
                exact Option.noConfusion h
    have hGV : ∀ st adt vs inst r st',
        gen_variant_types adts (fuel + 1) st adt vs inst = some (r, st') →
        StStep adts st st' := by
      intro st adt vs inst r st' h
      cases vs with
      | nil =>
        rw [gen_variant_types] at h
        cases h
        exact StStep_refl adts st
      | cons v vs2 =>
        rw [gen_variant_types] at h
        rcases h1 : gen_type adts fuel st (adt.type_with_inst_of_variant v inst)
            with _ | ⟨lt, st1⟩
        · rw [h1] at h
          simp only [Option.bind_eq_bind, Option.none_bind] at h
          exact Option.noConfusion h
        · rw [h1] at h
          simp only [Option.bind_eq_bind, Option.some_bind] at h
          rcases h2 : gen_variant_types adts fuel st1 adt vs2 inst
              with _ | ⟨lts, st2⟩
          · rw [h2] at h
            simp only [Option.none_bind] at h
            exact Option.noConfusion h
          · rw [h2] at h
            simp only [Option.some_bind] at h
            have := Option.some.inj h
            obtain ⟨-, hst⟩ := Prod.ext_iff.mp this
            subst hst
            exact StStep_trans (ihGT _ _ _ _ h1) (ihGV _ _ _ _ _ _ h2)
    have hGL : ∀ st adt inst r st',
        gen_largest_adt_variant_type adts (fuel + 1) st adt inst
          = some (r, st') → StStep adts st st' := by
      intro st adt inst r st' h
      rw [gen_largest_adt_variant_type] at h
      rcases h1 : gen_variant_types adts fuel st adt adt.variants inst
          with _ | ⟨vts, st1⟩
      · rw [h1] at h
        simp only [Option.bind_eq_bind, Option.none_bind] at h
        exact Option.noConfusion h
      · rw [h1] at h
        simp only [Option.bind_eq_bind, Option.some_bind] at h
        have := Option.some.inj h
        obtain ⟨-, hst⟩ := Prod.ext_iff.mp this
        subst hst
        exact ihGV _ _ _ _ _ _ h1
    have hGA : ∀ st adt inst r st',
        gen_adt adts (fuel + 1) st adt inst = some (r, st') →
        StStep adts st st' := by
      intro st adt inst r st' h
      rw [gen_adt] at h
      rcases h1 : gen_largest_adt_variant_type adts fuel st adt inst
          with _ | ⟨largest, st1⟩
      · rw [h1] at h
        simp only [Option.bind_eq_bind, Option.none_bind] at h
        exact Option.noConfusion h
      · rw [h1] at h
        simp only [Option.bind_eq_bind, Option.some_bind] at h
        have := Option.some.inj h
        obtain ⟨-, hst⟩ := Prod.ext_iff.mp this
        subst hst
        exact StStep_trans (ihGL _ _ _ _ _ h1) (StStep_of_adts_eq adts st1 _ rfl)
    have hPR : ∀ st adt inst innerName st',
        populate_recursive_adt adts (fuel + 1) st adt inst innerName
          = some st' → StStep adts st st' := by
      intro st adt inst innerName st' h
      rw [populate_recursive_adt] at h
      rcases h1 : gen_largest_adt_variant_type adts fuel st adt inst
          with _ | ⟨largest, st1⟩
      · rw [h1] at h
        simp only [Option.bind_eq_bind, Option.none_bind] at h
        exact Option.noConfusion h
      · rw [h1] at h
        simp only [Option.bind_eq_bind, Option.some_bind] at h
        rcases h2 : alookup st1.structDefs innerName with _ | fs
        · rw [h2] at h
          exact Option.noConfusion h
        · rcases fs with _ | fields
          · rw [h2] at h
            have := Option.some.inj h
            subst this
            exact StStep_trans (ihGL _ _ _ _ _ h1)
              (StStep_of_adts_eq adts st1 _ rfl)
          · rw [h2] at h
            exact Option.noConfusion h
    have hGG : ∀ st name inst r st',
        get_or_gen_adt_by_name_and_inst adts (fuel + 1) st name inst
          = some (r, st') → StStep adts st st' := by
      intro st name inst r st' h
      rw [get_or_gen_adt_by_name_and_inst] at h
      rcases hc : alookup st.adts (name, inst) with _ | tc
      · rw [hc] at h
        rcases hdef : alookup adts.defs name with _ | adt
        · rw [hdef] at h
          simp only [Option.bind_eq_bind, Option.none_bind] at h
          exact Option.noConfusion h
        · rw [hdef] at h
          simp only [Option.bind_eq_bind, Option.some_bind] at h
          by_cases hrec : adts.adt_is_recursive adt
          · rw [if_pos hrec] at h
            rcases h1 : populate_recursive_adt adts fuel
                (seedRecursiveAdt st name inst
                  (freshStructName st.structDefs (name ++ "_in"))) adt inst
                (freshStructName st.structDefs (name ++ "_in"))
                with _ | st3
            · rw [h1] at h
              simp only [Option.bind_eq_bind, Option.none_bind] at h
              exact Option.noConfusion h
            · rw [h1] at h
              simp only [Option.bind_eq_bind, Option.some_bind] at h
              have s1 : StStep adts st (seedRecursiveAdt st name inst
                  (freshStructName st.structDefs (name ++ "_in"))) := by
                refine StStep_of_append adts st _ name inst
                  (type_rc (.namedStruct
                    (freshStructName st.structDefs (name ++ "_in"))))
                  adt rfl hdef ?_
                show true = adts.adt_is_recursive adt
                exact hrec.symm
              exact StStep_trans s1
                (StStep_trans (ihPR _ _ _ _ _ h1) (ihGG _ _ _ _ _ h))
          · rw [if_neg hrec] at h
            rcases h1 : gen_adt adts fuel st adt inst with _ | ⟨t1, st1⟩
            · rw [h1] at h
              simp only [Option.bind_eq_bind, Option.none_bind] at h
              exact Option.noConfusion h
            · rw [h1] at h
              simp only [Option.bind_eq_bind, Option.some_bind] at h
              obtain ⟨sname, hsh⟩ := gen_adt_shape adts fuel st adt inst t1 st1 h1
              have s2 : StStep adts st1
                  { st1 with adts := st1.adts ++ [((name, inst), t1)] } := by
                refine StStep_of_append adts st1 _ name inst t1 adt rfl hdef ?_
                rw [hsh]
                show false = adts.adt_is_recursive adt
                exact (Bool.not_eq_true _).mp hrec |>.symm
              exact StStep_trans (ihGA _ _ _ _ _ h1)
                (StStep_trans s2 (ihGG _ _ _ _ _ h))
      · rw [hc] at h
        cases h
        exact StStep_refl adts st
    exact ⟨hGT, hGG, hGA, hGL, hGV, hPR⟩

/-- The result of `get_or_gen_adt_by_name_and_inst` is recorded in the
returned cache under the requested key: a miss generates the type and then
re-enters through the cache, so every successful return is a cache hit. -/
theorem get_or_gen_cached (adts : Adts) : ∀ fuel st name inst t st',
    get_or_gen_adt_by_name_and_inst adts fuel st name inst = some (t, st') →
    alookup st'.adts (name, inst) = some t := by
  intro fuel
  induction fuel with
  | zero => intro st name inst t st' h; exact Option.noConfusion h
  | succ fuel ih =>
    intro st name inst t st' h
    rw [get_or_gen_adt_by_name_and_inst] at h
    rcases hc : alookup st.adts (name, inst) with _ | tc
    · rw [hc] at h
      rcases hdef : alookup adts.defs name with _ | adt
      · rw [hdef] at h
        simp only [Option.bind_eq_bind, Option.none_bind] at h
        exact Option.noConfusion h
      · rw [hdef] at h
        simp only [Option.bind_eq_bind, Option.some_bind] at h
        by_cases hrec : adts.adt_is_recursive adt
        · rw [if_pos hrec] at h
          rcases h1 : populate_recursive_adt adts fuel
              (seedRecursiveAdt st name inst
                (freshStructName st.structDefs (name ++ "_in"))) adt inst
              (freshStructName st.structDefs (name ++ "_in"))
              with _ | st3
          · rw [h1] at h
            simp only [Option.bind_eq_bind, Option.none_bind] at h
            exact Option.noConfusion h
          · rw [h1] at h
            simp only [Option.bind_eq_bind, Option.some_bind] at h
            exact ih _ _ _ _ _ h
        · rw [if_neg hrec] at h
          rcases h1 : gen_adt adts fuel st adt inst with _ | ⟨t1, st1⟩
          · rw [h1] at h
            simp only [Option.bind_eq_bind, Option.none_bind] at h
            exact Option.noConfusion h
          · rw [h1] at h
            simp only [Option.bind_eq_bind, Option.some_bind] at h
            exact ih _ _ _ _ _ h
    · rw [hc] at h
      cases h
      exact hc

/-- C8: for every defined ADT and instantiation, starting from a consistent
type cache, the IR type produced by `get_or_gen_adt_by_name_and_inst` is a
pointer type exactly when the ADT definition graph is recursive, and the
result is recorded in the returned cache under the `(name, inst)` key (a
recursive ADT sees its own RC-pointer entry seeded before its struct is
populated, which is what makes lowering terminate). -/
theorem C8_recursive_adt_pointer_representation
    (adts : Adts) (fuel : Nat) (st : NamedTypes) (name : String)
    (inst : List Ty) (t : LLType) (st' : NamedTypes) (adt : AdtDef)
    (hcons : adtCacheConsistent adts st)
    (hdef : alookup adts.defs name = some adt)
    (h : get_or_gen_adt_by_name_and_inst adts fuel st name inst
          = some (t, st')) :
    t.isPointer = adts.adt_is_recursive adt ∧
    alookup st'.adts (name, inst) = some t := by
  have hcached := get_or_gen_cached adts fuel st name inst t st' h
  have hstep : StStep adts st st' :=
    (genTypeFamily_StStep adts fuel).2.1 st name inst t st' h
  obtain ⟨adt2, hdef2, hp⟩ := (hstep.2 hcons) name inst t hcached
  rw [hdef] at hdef2
  cases Option.some.inj hdef2
  exact ⟨hp, hcached⟩

/-- Concrete instance of C8: lowering `List Int32` for the recursive `List`
ADT from the empty cache yields a pointer type, cached under its key. -/
theorem C8_witness :
    ∃ t st', get_or_gen_adt_by_name_and_inst egAdtsList 10 NamedTypes.initial
        "List" [Ty.const "Int32" none] = some (t, st') ∧
      t.isPointer = egAdtsList.adt_is_recursive egListAdt ∧
      alookup st'.adts ("List", [Ty.const "Int32" none]) = some t := by
  have hs : (get_or_gen_adt_by_name_and_inst egAdtsList 10 NamedTypes.initial
      "List" [Ty.const "Int32" none]).isSome = true := rfl
  obtain ⟨⟨t, st'⟩, h⟩ := Option.isSome_iff_exists.mp hs
  obtain ⟨h1, h2⟩ := C8_recursive_adt_pointer_representation egAdtsList 10
    NamedTypes.initial "List" [Ty.const "Int32" none] t st' egListAdt
    (fun _ _ _ h0 => Option.noConfusion h0) rfl h
  exact ⟨t, st', h, h1, h2⟩

end Kvaser
